import Mathlib

/-!
Shallow embedding of the mobile-store scraper's extraction engine.

JavaScript values are modelled by the inductive type `JValue`.  Numbers are
exact decimals, a mantissa `m : Int` with exponent `e : Nat` denoting
`m / 10 ^ e` (every numeric literal in the modelled code and every number a
JSON document can write is such a decimal; float rounding is never exercised
by the claims under study), and `NaN` is a separate constructor.  Objects
are association lists preserving the source's key order.  Truthiness, the
`||` operator, property access (total `getProp` where the source has already
guarded the receiver, and the throwing `jsGetE` where a `TypeError` is
reachable) and strict equality `===` follow the ECMAScript semantics the
source relies on.  `===` on two composite values is reference identity in
JavaScript; in the modelled code `===` is only ever applied with a primitive
on one side, so the embedding returns `false` for composite operands.
-/

inductive JValue where
  | null : JValue
  | undefined : JValue
  | nan : JValue
  | bool : Bool → JValue
  | num : Int → Nat → JValue
  | str : String → JValue
  | arr : List JValue → JValue
  | obj : List (String × JValue) → JValue

/-- Numeric equality of the decimals `m1 / 10 ^ e1` and `m2 / 10 ^ e2`. -/
def numEqB (m1 : Int) (e1 : Nat) (m2 : Int) (e2 : Nat) : Bool :=
  m1 * 10 ^ e2 == m2 * 10 ^ e1

/-- JavaScript truthiness: `null`, `undefined`, `NaN`, `false`, `0` and the
empty string are falsy; every other value (including any array or object) is
truthy. -/
def truthy : JValue → Bool
  | .null => false
  | .undefined => false
  | .nan => false
  | .bool b => b
  | .num m _ => if m = 0 then false else true
  | .str s => if s = "" then false else true
  | .arr _ => true
  | .obj _ => true

/-- The JavaScript expression `a || b`. -/
def truthyOr (a b : JValue) : JValue := if truthy a then a else b

/-- Fold a list of digit characters into a natural number. -/
def digitsToNat (l : List Char) : Nat :=
  l.foldl (fun acc c => acc * 10 + (c.toNat - 48)) 0

/-- Parse a string that consists solely of digits (used for array index
property keys). -/
def strToNatQ (s : String) : Option Nat :=
  if s ≠ "" ∧ s.toList.all Char.isDigit then some (digitsToNat s.toList) else none

/-- Association-list lookup used for object property access; a missing key
yields `undefined`. -/
def lookupField : List (String × JValue) → String → JValue
  | [], _ => .undefined
  | (k, v) :: rest, key => if k = key then v else lookupField rest key

/-- `s[i]` string indexing as a JavaScript property access. -/
def charAtStr (s : String) (i : Nat) : JValue :=
  match s.toList.drop i with
  | [] => .undefined
  | c :: _ => .str (String.mk [c])

/-- Total property access, used only where the source has already guarded the
receiver against `null`/`undefined` (on which JavaScript would throw; see
`jsGetE`).  Strings and arrays expose `length` and numeric indices; property
access on other primitives yields `undefined`. -/
def getProp : JValue → String → JValue
  | .obj fs, key => lookupField fs key
  | .arr xs, key =>
      if key = "length" then .num (xs.length : Int) 0
      else
        match strToNatQ key with
        | some i => (xs.drop i).headD .undefined
        | none => .undefined
  | .str s, key =>
      if key = "length" then .num (s.toList.length : Int) 0
      else
        match strToNatQ key with
        | some i => charAtStr s i
        | none => .undefined
  | _, _ => .undefined

/-- Property access that models the `TypeError` thrown by JavaScript when the
receiver is `null` or `undefined`. -/
def jsGetE : JValue → String → Except String JValue
  | .null, _ => .error "TypeError"
  | .undefined, _ => .error "TypeError"
  | v, key => .ok (getProp v key)

/-- Strict equality `===`.  `NaN` is unequal to everything including itself;
composite operands compare by reference in JavaScript and never alias in the
modelled code, hence `false`. -/
def jsStrictEq : JValue → JValue → Bool
  | .nan, _ => false
  | _, .nan => false
  | .null, .null => true
  | .undefined, .undefined => true
  | .bool a, .bool b => a == b
  | .num m1 e1, .num m2 e2 => numEqB m1 e1 m2 e2
  | .str a, .str b => a == b
  | _, _ => false

/-- The SameValueZero comparison used by `Set` membership: like `===` except
that `NaN` equals `NaN`.  Composite values compare by reference in
JavaScript, and distinct parses never alias, so they compare unequal here. -/
def sameValueZero : JValue → JValue → Bool
  | .nan, .nan => true
  | .null, .null => true
  | .undefined, .undefined => true
  | .bool a, .bool b => a == b
  | .num m1 e1, .num m2 e2 => numEqB m1 e1 m2 e2
  | .str a, .str b => a == b
  | _, _ => false

/-- Left-pad a digit string with zeros to length `k`. -/
def padZeros (s : String) (k : Nat) : String :=
  String.mk (List.replicate (k - s.toList.length) '0') ++ s

/-- Drop trailing zeros of a fractional digit string. -/
def trimZeros (s : String) : String :=
  let t := String.mk ((s.toList.reverse.dropWhile (fun c => c = '0')).reverse)
  if t = "" then "0" else t

/-- JavaScript rendering of the number `m / 10 ^ e`: integers print without a
point, terminating decimals print their significant digits. -/
def numToString (m : Int) (e : Nat) : String :=
  if e = 0 then toString m
  else
    let p : Nat := 10 ^ e
    let a : Nat := m.natAbs
    if a % p = 0 then (if m < 0 then "-" else "") ++ toString (a / p)
    else
      (if m < 0 then "-" else "") ++ toString (a / p) ++ "." ++
        trimZeros (padZeros (toString (a % p)) e)

/-- `Number.prototype.toFixed(1)` for the value `m / 10 ^ e` (round half away
from zero). -/
def toFixed1 (m : Int) (e : Nat) : String :=
  let p : Nat := 10 ^ e
  let r : Nat := (m.natAbs * 10 + p / 2) / p
  (if m < 0 then "-" else "") ++ toString (r / 10) ++ "." ++ toString (r % 10)

/-- Join a list of strings with commas (`Array.prototype.join`). -/
def joinComma : List String → String
  | [] => ""
  | [s] => s
  | s :: rest => s ++ "," ++ joinComma rest

/-- Fuel-indexed JavaScript string coercion; arrays render their elements
joined by commas with `null`/`undefined` elements rendered empty.  The fuel
only bounds array nesting depth; it is instantiated with a bound (10 ^ 6)
far beyond any value the modelled parsers can build or read, and no fuel is
consumed on non-array values. -/
def jsToStringF : Nat → JValue → String
  | _, .null => "null"
  | _, .undefined => "undefined"
  | _, .nan => "NaN"
  | _, .bool b => if b then "true" else "false"
  | _, .num m e => numToString m e
  | _, .str s => s
  | _, .obj _ => "[object Object]"
  | 0, .arr _ => ""
  | fuel + 1, .arr xs =>
      joinComma (xs.map fun x =>
        match x with
        | .null => ""
        | .undefined => ""
        | v => jsToStringF fuel v)

/-- JavaScript string coercion `String(v)` / `v.toString()` (total here; the
source only applies it to values guarded away from `null`/`undefined`). -/
def jsToString (v : JValue) : String := jsToStringF 1000000 v

/-- ASCII lower-casing of one character (the modelled call sites only see
ASCII permission names and price texts). -/
def charLower (c : Char) : Char :=
  if 'A' ≤ c ∧ c ≤ 'Z' then Char.ofNat (c.toNat + 32) else c

/-- `s.toLowerCase()` on a string receiver. -/
def strLower (s : String) : String :=
  String.mk (s.toList.map charLower)

/-- `v.toLowerCase()`: defined on strings, a `TypeError` on any other
receiver. -/
def toLowerE : JValue → Except String String
  | .str s => .ok (strLower s)
  | _ => .error "TypeError"

/-- `s.trim()`. -/
def jsTrim (s : String) : String :=
  String.mk (((s.toList.dropWhile Char.isWhitespace).reverse.dropWhile Char.isWhitespace).reverse)

/-- `parseInt(s, 10)`: skip whitespace, optional sign, then the longest digit
prefix; `NaN` when no digit is found. -/
def parseIntJ (s : String) : JValue :=
  let l := s.toList.dropWhile Char.isWhitespace
  let signed : Bool × List Char :=
    match l with
    | '-' :: rest => (true, rest)
    | '+' :: rest => (false, rest)
    | _ => (false, l)
  let digits := signed.2.takeWhile Char.isDigit
  if digits = [] then .nan
  else if signed.1 then .num (-(digitsToNat digits : Int)) 0
  else .num (digitsToNat digits : Int) 0

/-- `parseFloat(s)`: optional sign, integer digits, optional fractional
digits (no call site feeds an exponent form). -/
def parseFloatJ (s : String) : JValue :=
  let l := s.toList.dropWhile Char.isWhitespace
  let signed : Bool × List Char :=
    match l with
    | '-' :: rest => (true, rest)
    | '+' :: rest => (false, rest)
    | _ => (false, l)
  let ip := signed.2.takeWhile Char.isDigit
  let rest := signed.2.dropWhile Char.isDigit
  let fp : List Char :=
    match rest with
    | '.' :: r => r.takeWhile Char.isDigit
    | _ => []
  if ip = [] ∧ fp = [] then .nan
  else
    let mag : Int := (digitsToNat ip : Int) * 10 ^ fp.length + (digitsToNat fp : Int)
    .num (if signed.1 then -mag else mag) fp.length

/-- `s.replace(/[^0-9]/g, "")`. -/
def digitsOnly (s : String) : String :=
  String.mk (s.toList.filter Char.isDigit)

/-- `s.replace(/,/g, "")`. -/
def removeCommas (s : String) : String :=
  String.mk (s.toList.filter (fun c => c ≠ ','))

/-- Global, non-overlapping, left-to-right replacement of the pattern `pat`
by `rep` (the semantics of `s.replace(/pat/g, rep)` for a literal pattern).
The fuel equals the input length; every step consumes at least one
character. -/
def replaceListGo (pat rep : List Char) : Nat → List Char → List Char
  | 0, l => l
  | _, [] => []
  | fuel + 1, c :: rest =>
      if pat.isPrefixOf (c :: rest) ∧ pat ≠ [] then
        rep ++ replaceListGo pat rep fuel ((c :: rest).drop pat.length)
      else c :: replaceListGo pat rep fuel rest

/-- `s.replace(/pat/g, rep)` for a literal pattern. -/
def jsReplaceAll (s pat rep : String) : String :=
  String.mk (replaceListGo pat.toList rep.toList s.toList.length s.toList)

/-- The entity decoding chain applied to review text:
`&quot;` then `&amp;` then `&lt;` then `&gt;`, in source order. -/
def decodeEntities (s : String) : String :=
  jsReplaceAll (jsReplaceAll (jsReplaceAll (jsReplaceAll s "&quot;" "\"") "&amp;" "&") "&lt;" "<") "&gt;" ">"

/-- Character scan behind `stripTags`: at a `<` whose remainder holds at
least one non-`>` character followed by a `>`, the whole `<...>` span is
removed (the source's `/<[^>]+>/g` requires a non-empty tag body and matches
up to the first `>`); otherwise the character is kept.  The fuel equals the
input length. -/
def stripTagsGo : Nat → List Char → List Char
  | 0, l => l
  | _, [] => []
  | fuel + 1, c :: rest =>
      if c = '<' ∧ rest.takeWhile (fun d => d ≠ '>') ≠ [] ∧
          rest.dropWhile (fun d => d ≠ '>') ≠ [] then
        stripTagsGo fuel (rest.dropWhile (fun d => d ≠ '>')).tail
      else c :: stripTagsGo fuel rest

/-- `s.replace(/<[^>]+>/g, "")`: remove every HTML tag. -/
def stripTags (s : String) : String :=
  String.mk (stripTagsGo s.toList.length s.toList)

/-- `s.substring(0, n)`. -/
def substringTo (s : String) (n : Nat) : String :=
  String.mk (s.toList.take n)

/-- Lexicographic comparison of character lists by code point, the order the
default JavaScript `Array.prototype.sort` uses on strings. -/
def lexLeB : List Char → List Char → Bool
  | [], _ => true
  | _ :: _, [] => false
  | a :: as, b :: bs =>
      if a.toNat < b.toNat then true
      else if b.toNat < a.toNat then false
      else lexLeB as bs

/-- String comparison used by the category sort. -/
def strLeB (a b : String) : Bool := lexLeB a.toList b.toList

namespace AppStore

/-- The canonical App object literal built by the iTunes `parseApp`
(src/unnamed/part_001 lines 17-66) from the raw record `app`, with the
source's key order and `||`-defaults. -/
def mkApp (app : JValue) : JValue :=
  .obj
    [ ("id", truthyOr (getProp app "trackId") .null),
      ("appId", truthyOr (getProp app "bundleId") .null),
      ("title", truthyOr (getProp app "trackName") .null),
      ("url", truthyOr (getProp app "trackViewUrl") .null),
      ("description", truthyOr (getProp app "description") .null),
      ("releaseNotes", truthyOr (getProp app "releaseNotes") .null),
      ("version", truthyOr (getProp app "version") .null),
      ("releaseDate", truthyOr (getProp app "releaseDate") .null),
      ("currentVersionReleaseDate", truthyOr (getProp app "currentVersionReleaseDate") .null),
      ("price", truthyOr (getProp app "price") (.num 0 0)),
      ("currency", truthyOr (getProp app "currency") .null),
      ("free", .bool (jsStrictEq (getProp app "price") (.num 0 0))),
      ("developer", .obj
        [ ("id", truthyOr (getProp app "artistId") .null),
          ("name", truthyOr (getProp app "artistName") .null),
          ("url", truthyOr (getProp app "artistViewUrl") .null) ]),
      ("category", .obj
        [ ("id", truthyOr (getProp app "primaryGenreId") .null),
          ("name", truthyOr (getProp app "primaryGenreName") .null),
          ("genres", truthyOr (getProp app "genres") (.arr [])) ]),
      ("rating", .obj
        [ ("average", truthyOr (getProp app "averageUserRating") .null),
          ("count", truthyOr (getProp app "userRatingCount") (.num 0 0)) ]),
      ("contentAdvisoryRating", truthyOr (getProp app "contentAdvisoryRating") .null),
      ("screenshotUrls", truthyOr (getProp app "screenshotUrls") (.arr [])),
      ("ipadScreenshotUrls", truthyOr (getProp app "ipadScreenshotUrls") (.arr [])),
      ("appletvScreenshotUrls", truthyOr (getProp app "appletvScreenshotUrls") (.arr [])),
      ("artwork", .obj
        [ ("icon", truthyOr (truthyOr (truthyOr (getProp app "artworkUrl512") (getProp app "artworkUrl100")) (getProp app "artworkUrl60")) .null),
          ("icon60", truthyOr (getProp app "artworkUrl60") .null),
          ("icon100", truthyOr (getProp app "artworkUrl100") .null),
          ("icon512", truthyOr (getProp app "artworkUrl512") .null) ]),
      ("supportedDevices", truthyOr (getProp app "supportedDevices") (.arr [])),
      ("minimumOsVersion", truthyOr (getProp app "minimumOsVersion") .null),
      ("languageCodesISO2A", truthyOr (getProp app "languageCodesISO2A") (.arr [])),
      ("fileSizeBytes", truthyOr (getProp app "fileSizeBytes") .null),
      ("sellerName", truthyOr (getProp app "sellerName") .null),
      ("formattedPrice", truthyOr (getProp app "formattedPrice") .null),
      ("isGameCenterEnabled", truthyOr (getProp app "isGameCenterEnabled") (.bool false)),
      ("features", truthyOr (getProp app "features") (.arr [])),
      ("advisories", truthyOr (getProp app "advisories") (.arr [])),
      ("kind", truthyOr (getProp app "kind") .null),
      ("averageUserRatingForCurrentVersion", truthyOr (getProp app "averageUserRatingForCurrentVersion") .null),
      ("userRatingCountForCurrentVersion", truthyOr (getProp app "userRatingCountForCurrentVersion") (.num 0 0)) ]

/-- iTunes `parseApp` (src/unnamed/part_001 lines 10-67).  The guard returns
`null` for falsy `data`, falsy `data.results`, or `results.length === 0`;
afterwards every field access on `data.results[0]` throws when that element
is `null`/`undefined` (the source has no `try`/`catch`), which the `Except`
layer records. -/
def parseApp (data : JValue) : Except String (Option JValue) :=
  if truthy data = false then .ok none
  else if truthy (getProp data "results") = false then .ok none
  else if jsStrictEq (getProp (getProp data "results") "length") (.num 0 0) then .ok none
  else
    match getProp (getProp data "results") "0" with
    | .null => .error "TypeError"
    | .undefined => .error "TypeError"
    | app => .ok (some (mkApp app))

/-- The `kind === 'software' || wrapperType === 'software'` filter of
`parseApps`; accessing `kind` on a `null`/`undefined` element throws. -/
def softwareFilter : List JValue → Except String (List JValue)
  | [] => .ok []
  | x :: xs => do
      let kind ← jsGetE x "kind"
      let keep :=
        if jsStrictEq kind (.str "software") then true
        else jsStrictEq (getProp x "wrapperType") (.str "software")
      let rest ← softwareFilter xs
      if keep then .ok (x :: rest) else .ok rest

/-- iTunes `parseApps` (src/unnamed/part_001 lines 74-87): guard, filter to
software records, re-wrap each as a lookup response for `parseApp`, drop
`null`s. -/
def parseApps (data : JValue) : Except String (List JValue) :=
  if truthy data = false then .ok []
  else if truthy (getProp data "results") = false then .ok []
  else
    match getProp data "results" with
    | .arr xs => do
        let kept ← softwareFilter xs
        let parsed ← kept.mapM (fun app => parseApp (.obj [("results", .arr [app])]))
        .ok (parsed.filterMap id)
    | _ => .ok []

/-- `parseSearch` (src/unnamed/part_002 lines 12-20): builds the result
object from `parseApps` and then reads `data.resultCount`, an unguarded
property access that throws on `null`/`undefined` input. -/
def parseSearch (data : JValue) : Except String JValue := do
  let apps ← parseApps data
  let rc ← jsGetE data "resultCount"
  .ok (.obj
    [ ("results", .arr apps),
      ("count", .num (apps.length : Int) 0),
      ("total", truthyOr rc (.num (apps.length : Int) 0)) ])

end AppStore

/-- Numeric sort key of a suggestion record: the comparator
`(b.priority || 0) - (a.priority || 0)` reads the `priority` property with a
`0` default.  A non-numeric truthy priority would coerce through JavaScript
subtraction; no modelled producer creates one, and it is treated as `0`
here. -/
def prioKey (v : JValue) : Int × Nat :=
  match truthyOr (getProp v "priority") (.num 0 0) with
  | .num m e => (m, e)
  | _ => (0, 0)

/-- The descending-priority order imposed by the suggestion sort comparator:
`a` precedes `b` when the priority of `b` is at most the priority of `a`
(decimals `m / 10 ^ e` compared by cross-multiplication). -/
def prioGE (a b : JValue) : Prop :=
  (prioKey b).1 * 10 ^ (prioKey a).2 ≤ (prioKey a).1 * 10 ^ (prioKey b).2

instance : DecidableRel prioGE := fun a b =>
  inferInstanceAs (Decidable ((prioKey b).1 * 10 ^ (prioKey a).2 ≤ (prioKey a).1 * 10 ^ (prioKey b).2))

instance : IsTotal JValue prioGE :=
  ⟨fun a b => Int.le_total ((prioKey b).1 * 10 ^ (prioKey a).2) ((prioKey a).1 * 10 ^ (prioKey b).2)⟩

instance : IsTrans JValue prioGE := by
  constructor
  intro a b c h1 h2
  unfold prioGE at h1 h2 ⊢
  set m1 := (prioKey a).1 with hm1
  set e1 := (prioKey a).2 with he1
  set m2 := (prioKey b).1 with hm2
  set e2 := (prioKey b).2 with he2
  set m3 := (prioKey c).1 with hm3
  set e3 := (prioKey c).2 with he3
  have p2 : (0 : Int) < 10 ^ e2 := by positivity
  have h1x : m2 * 10 ^ e1 * 10 ^ e3 ≤ m1 * 10 ^ e2 * 10 ^ e3 :=
    mul_le_mul_of_nonneg_right h1 (by positivity)
  have h2x : m3 * 10 ^ e2 * 10 ^ e1 ≤ m2 * 10 ^ e3 * 10 ^ e1 :=
    mul_le_mul_of_nonneg_right h2 (by positivity)
  have key : m3 * 10 ^ e1 * 10 ^ e2 ≤ m1 * 10 ^ e3 * 10 ^ e2 := by nlinarith
  exact le_of_mul_le_mul_right key p2

/-- Does an object literal carry the given key? -/
def hasKey (v : JValue) (key : String) : Bool :=
  match v with
  | .obj fs => fs.any fun p => p.1 = key
  | _ => false

namespace AppStore

/-- The `data.hints.map(...)` body of the App Store `parseSuggest`
(src/src/parsers/appStore/suggest.js lines 15-17); reading `term` on a
`null`/`undefined` element throws. -/
def mapHints : List JValue → Except String (List JValue)
  | [] => .ok []
  | h :: rest => do
      let t ← jsGetE h "term"
      let p := getProp h "priority"
      let rs ← mapHints rest
      .ok (JValue.obj [("term", truthyOr t .null), ("priority", truthyOr p (.num 0 0))] :: rs)

/-- App Store `parseSuggest` (src/src/parsers/appStore/suggest.js lines
10-19): guard on `data.hints` being an array, map each hint to a
`{term, priority}` record, sort descending by priority. -/
def parseSuggest (data : JValue) : Except String (List JValue) :=
  if truthy data = false then .ok []
  else
    match getProp data "hints" with
    | .arr hints => do
        let recs ← mapHints hints
        .ok (List.insertionSort prioGE recs)
    | _ => .ok []

/-- The all-zero rating histogram literal of `parseRatings`. -/
def zeroHistogram : JValue :=
  .obj [("1", .num 0 0), ("2", .num 0 0), ("3", .num 0 0), ("4", .num 0 0), ("5", .num 0 0)]

/-- `parseRatings` (src/src/parsers/appStore/ratings.js lines 10-39): a
default object without an `average` key when `appData` or `appData.rating`
is falsy, otherwise count/average with `|| 0` / `|| null` defaults; the
histogram buckets are hard-coded to zero on both paths. -/
def parseRatings (appData : JValue) : JValue :=
  if truthy appData = false ∨ truthy (getProp appData "rating") = false then
    .obj [("ratings", .num 0 0), ("histogram", zeroHistogram)]
  else
    .obj
      [ ("ratings", truthyOr (getProp (getProp appData "rating") "count") (.num 0 0)),
        ("average", truthyOr (getProp (getProp appData "rating") "average") .null),
        ("histogram", zeroHistogram) ]

end AppStore

namespace GooglePlay

/-- One item of the array branch of the Google Play `parseSuggest`
(src/unnamed/part_000 lines 28-37): a bare string pushes `{term}` with no
`priority` key; an object item pushes both keys when one of `suggestion`,
`term`, `q` is truthy; property access on a `null`/`undefined` item
throws. -/
def suggestArrayItem (item : JValue) : Except String (Option JValue) :=
  match item with
  | .str s => .ok (some (.obj [("term", .str s)]))
  | item => do
      let sug ← jsGetE item "suggestion"
      let t := truthyOr (truthyOr sug (getProp item "term")) (getProp item "q")
      if truthy t then
        .ok (some (.obj [("term", t), ("priority", truthyOr (getProp item "priority") (.num 0 0))]))
      else .ok none

/-- `forEach` over the array branch items. -/
def suggestArrayLoop : List JValue → Except String (List JValue)
  | [] => .ok []
  | x :: xs => do
      let r ← suggestArrayItem x
      let rest ← suggestArrayLoop xs
      match r with
      | some v => .ok (v :: rest)
      | none => .ok rest

/-- One item of the `suggestions`/`data` branch (src/unnamed/part_000 lines
40-45): pushed unconditionally, with the item itself as the final `term`
fallback. -/
def suggestListItem (item : JValue) : Except String JValue := do
  let sug ← jsGetE item "suggestion"
  let t := truthyOr (truthyOr (truthyOr sug (getProp item "term")) (getProp item "q")) item
  .ok (.obj [("term", t), ("priority", truthyOr (getProp item "priority") (.num 0 0))])

/-- `forEach` over the `suggestions`/`data` branch items. -/
def suggestListLoop : List JValue → Except String (List JValue)
  | [] => .ok []
  | x :: xs => do
      let v ← suggestListItem x
      let rest ← suggestListLoop xs
      .ok (v :: rest)

/-- The unsorted suggestion list of the Google Play `parseSuggest`
(src/unnamed/part_000 lines 27-52); any JavaScript error surfaces in the
`Except` layer and is caught by the enclosing `try` (which discards all
partial results). -/
def buildSuggestions (jsonData : JValue) : Except String (List JValue) :=
  match jsonData with
  | .arr items => suggestArrayLoop items
  | j => do
      let sugg ← jsGetE j "suggestions"
      let dat := getProp j "data"
      if truthy (truthyOr sugg dat) then
        match truthyOr (truthyOr sugg dat) (.arr []) with
        | .arr items => suggestListLoop items
        | _ => .error "TypeError"
      else
        let q := getProp j "q"
        if truthy q then
          .ok [.obj [("term", q), ("priority", truthyOr (getProp j "priority") (.num 0 0))]]
        else .ok []

/-- The Google Play `parseSuggest` body after JSON decoding: build, sort
descending by priority; the surrounding `try`/`catch` turns any error into
`[]`. -/
def parseSuggestCore (jsonData : JValue) : List JValue :=
  match buildSuggestions jsonData with
  | .ok l => List.insertionSort prioGE l
  | .error _ => []

/-- Google Play `parseSuggest` (src/unnamed/part_000 lines 10-59).  String
input goes through `JSON.parse`, abstracted by the `jsonParse` oracle; a
parse failure is caught and yields `[]`. -/
def parseSuggest (data : JValue) (jsonParse : String → Option JValue) : List JValue :=
  if truthy data = false then []
  else
    match data with
    | .str s =>
        match jsonParse s with
        | some j => parseSuggestCore j
        | none => []
    | j => parseSuggestCore j

end GooglePlay

namespace GooglePlay

/-- The optional-chaining access `v?.key`: `undefined` for a
`null`/`undefined` receiver instead of a `TypeError`. -/
def optChain (v : JValue) (key : String) : JValue :=
  match v with
  | .null => .undefined
  | .undefined => .undefined
  | v => getProp v key

/-- The canonical review record shape built by the Google Play reviews
parser (all three strategies produce it). -/
structure Review where
  reviewId : JValue
  userName : JValue
  userImage : JValue
  date : JValue
  dateText : JValue
  score : JValue
  scoreText : JValue
  title : JValue
  text : JValue
  replyDate : JValue
  replyText : JValue
  version : JValue
  thumbsUp : JValue
  criterias : JValue

/-- The mutable state of one `parseReviews` call: the `seenReviewIds` set
(`Set` membership is SameValueZero) and the `reviews` output array. -/
structure RState where
  seen : List JValue
  out : List Review

/-- `if (!seenReviewIds.has(key)) { seenReviewIds.add(key); reviews.push(r) }`. -/
def addIfNew (st : RState) (key : JValue) (r : Review) : RState :=
  if st.seen.any (fun k => sameValueZero k key) then st
  else { seen := key :: st.seen, out := st.out ++ [r] }

/-- `extractFromJsonLd` (src/src/parsers/googlePlay/reviews.js lines
231-252).  Its `try`/`catch` yields `null` exactly when the receiver of the
first property access is `null`/`undefined`. -/
def extractFromJsonLd (jsonLd : JValue) : Option Review :=
  match jsonLd with
  | .null => none
  | .undefined => none
  | v =>
      let sc := truthyOr (truthyOr (optChain (getProp v "reviewRating") "ratingValue") (getProp v "ratingValue")) (.num 0 0)
      some
        { reviewId := truthyOr (truthyOr (getProp v "@id") (getProp v "identifier")) .null,
          userName := truthyOr (truthyOr (optChain (getProp v "author") "name") (getProp v "author")) (.str "Anonymous"),
          userImage := truthyOr (optChain (getProp v "author") "image") .null,
          date := truthyOr (truthyOr (getProp v "datePublished") (getProp v "dateCreated")) .null,
          dateText := truthyOr (truthyOr (getProp v "datePublished") (getProp v "dateCreated")) .null,
          score := sc,
          scoreText := .str (jsToString sc),
          title := truthyOr (truthyOr (getProp v "headline") (getProp v "name")) .null,
          text := truthyOr (truthyOr (truthyOr (getProp v "reviewBody") (getProp v "description")) (getProp v "text")) .null,
          replyDate := .null,
          replyText := .null,
          version := .null,
          thumbsUp := truthyOr (getProp v "upvoteCount") (.num 0 0),
          criterias := .arr [] }

/-- `normalizeReview` (src/src/parsers/googlePlay/reviews.js lines 259-280):
`null` unless the argument is a truthy value of `typeof 'object'`. -/
def normalizeReview (review : JValue) : Option Review :=
  if truthy review = false then none
  else
    match review with
    | .arr _ | .obj _ =>
        let sc := truthyOr (truthyOr (truthyOr (getProp review "score") (getProp review "rating")) (truthyOr (getProp review "starRating") (getProp review "ratingValue"))) (.num 0 0)
        some
          { reviewId := truthyOr (truthyOr (getProp review "reviewId") (getProp review "id")) (truthyOr (getProp review "identifier") .null),
            userName := truthyOr (truthyOr (getProp review "userName") (getProp review "author")) (truthyOr (truthyOr (getProp review "authorName") (getProp review "name")) (.str "Anonymous")),
            userImage := truthyOr (truthyOr (getProp review "userImage") (getProp review "avatar")) (truthyOr (getProp review "authorImage") .null),
            date := truthyOr (truthyOr (getProp review "date") (getProp review "timestamp")) (truthyOr (truthyOr (getProp review "datePublished") (getProp review "createdAt")) .null),
            dateText := truthyOr (truthyOr (getProp review "dateText") (getProp review "date")) (truthyOr (getProp review "timestamp") .null),
            score := sc,
            scoreText := .str (jsToString sc),
            title := truthyOr (truthyOr (getProp review "title") (getProp review "headline")) .null,
            text := truthyOr (truthyOr (truthyOr (getProp review "text") (getProp review "comment")) (truthyOr (getProp review "body") (getProp review "reviewBody"))) (truthyOr (getProp review "description") .null),
            replyDate := truthyOr (truthyOr (getProp review "replyDate") (getProp review "developerCommentDate")) .null,
            replyText := truthyOr (truthyOr (getProp review "replyText") (getProp review "developerComment")) (truthyOr (getProp review "reply") .null),
            version := truthyOr (truthyOr (getProp review "version") (getProp review "appVersion")) .null,
            thumbsUp := truthyOr (truthyOr (getProp review "thumbsUp") (getProp review "helpful")) (truthyOr (getProp review "upvoteCount") (.num 0 0)),
            criterias := truthyOr (truthyOr (getProp review "criterias") (getProp review "criteria")) (.arr []) }
    | _ => none

/-- `forEach` over candidate items where a thrown error aborts the rest of
the list but keeps the records already pushed (the enclosing `catch`
continues with the next block). -/
def foldItems (f : RState → JValue → Except String RState) : RState → List JValue → RState
  | st, [] => st
  | st, x :: xs =>
      match f st x with
      | .ok st2 => foldItems f st2 xs
      | .error _ => st

/-- One item of the JSON-LD strategy (src/src/parsers/googlePlay/reviews.js
lines 30-38): the `@type`/`reviewBody` test, extraction, and identity-keyed
dedup on `review.reviewId || review.text`. -/
def strat1Item (st : RState) (item : JValue) : Except String RState := do
  let t ← jsGetE item "@type"
  if jsStrictEq t (.str "Review") || truthy (getProp item "reviewBody") then
    match extractFromJsonLd item with
    | some r => .ok (addIfNew st (truthyOr r.reviewId r.text) r)
    | none => .ok st
  else .ok st

/-- One parsed JSON-LD block (src/src/parsers/googlePlay/reviews.js lines
26-42); the block's `try` turns any error (a `null` block, a non-array
`itemListElement`, a throw inside the `forEach`) into skipping the rest of
the block. -/
def strat1Block (st : RState) (b : JValue) : RState :=
  match jsGetE b "@type" with
  | .error _ => st
  | .ok t =>
      if jsStrictEq t (.str "Review") then
        match strat1Item st b with
        | .ok st2 => st2
        | .error _ => st
      else if jsStrictEq t (.str "ItemList") ∧ truthy (getProp b "itemListElement") then
        match getProp b "itemListElement" with
        | .arr items => foldItems strat1Item st items
        | _ => st
      else st

/-- One item of an embedded-script candidate array (lines 67-74 with the
`item.comment` disjunct, lines 88-95 without): filter, normalize, dedup on
`review.reviewId || review.text`. -/
def strat2ArrItem (withComment : Bool) (st : RState) (item : JValue) : RState :=
  if truthy item ∧ (truthy (getProp item "reviewId") ∨ truthy (getProp item "text") ∨
      truthy (getProp item "rating") ∨ (withComment ∧ truthy (getProp item "comment"))) then
    match normalizeReview item with
    | some r => addIfNew st (truthyOr r.reviewId r.text) r
    | none => st
  else st

/-- One successfully parsed candidate array of the embedded-script pattern
loop (src/src/parsers/googlePlay/reviews.js lines 60-81). -/
def strat2Array (st : RState) (items : List JValue) : RState :=
  items.foldl (strat2ArrItem true) st

/-- One item of the `reviews`/`data` list of a directly parsed script
(lines 99-105): normalize unconditionally, keep when non-`null`. -/
def strat2DirectItem (st : RState) (item : JValue) : RState :=
  match normalizeReview item with
  | some r => addIfNew st (truthyOr r.reviewId r.text) r
  | none => st

/-- One directly parsed script payload (src/src/parsers/googlePlay/reviews.js
lines 84-110): an array goes through the item filter without the
`item.comment` disjunct; otherwise the `reviews`/`data`/`[0]` branch runs,
its errors caught by the surrounding `try`. -/
def strat2Direct (st : RState) (j : JValue) : RState :=
  match j with
  | .arr items => items.foldl (strat2ArrItem false) st
  | j =>
      match jsGetE j "reviews" with
      | .error _ => st
      | .ok revs =>
          if truthy revs ∨ truthy (getProp j "data") ∨ truthy (getProp j "0") then
            match truthyOr (truthyOr revs (getProp j "data")) (.arr []) with
            | .arr items => items.foldl strat2DirectItem st
            | _ => st
          else st

/-- The captured regex groups of one visible-markup review block
(src/src/parsers/googlePlay/reviews.js lines 125-169): the raw capture of
the first matching pattern for each field, or `none` when no pattern
matched.  `rating` and `thumbsUp` captures are digit groups. -/
structure ReviewBlock where
  rating : Option String
  text : Option String
  author : Option String
  date : Option String
  reviewId : Option String
  thumbsUp : Option String

/-- The review-text post-processing of lines 142-145: strip tags, trim, and
decode entities when the result is truthy. -/
def processText (t : String) : String :=
  let t1 := jsTrim (stripTags t)
  if t1 = "" then t1 else decodeEntities t1

/-- `rating = ratingMatch ? parseInt(ratingMatch[1], 10) : null` (line 134). -/
def blockRating (b : ReviewBlock) : JValue :=
  match b.rating with | some s => parseIntJ s | none => .null

/-- The processed review text of lines 142-145 (`null` when no pattern
matched). -/
def blockText (b : ReviewBlock) : JValue :=
  match b.text with | some t => .str (processText t) | none => .null

/-- `author = authorMatch ? authorMatch[1].trim() : null` (line 152). -/
def blockAuthor (b : ReviewBlock) : JValue :=
  match b.author with | some s => .str (jsTrim s) | none => .null

/-- `date = dateMatch ? dateMatch[1].trim() : null` (line 159). -/
def blockDate (b : ReviewBlock) : JValue :=
  match b.date with | some s => .str (jsTrim s) | none => .null

/-- `reviewId = reviewIdMatch ? reviewIdMatch[1] : null` (line 164). -/
def blockReviewId (b : ReviewBlock) : JValue :=
  match b.reviewId with | some s => .str s | none => .null

/-- `thumbsUp = thumbsUpMatch ? parseInt(thumbsUpMatch[1], 10) : 0` (line 169). -/
def blockThumbs (b : ReviewBlock) : JValue :=
  match b.thumbsUp with | some s => parseIntJ s | none => .num 0 0

/-- The meaningful-data test `if (rating || text || author)` of line 172. -/
def blockCond (b : ReviewBlock) : Bool :=
  truthy (blockRating b) || truthy (blockText b) || truthy (blockAuthor b)

/-- The identity key of line 173:
`reviewId || text || author + "-" + date` (template-string coercion of
`null` included). -/
def blockKey (b : ReviewBlock) : JValue :=
  truthyOr (truthyOr (blockReviewId b) (blockText b))
    (.str (jsToString (blockAuthor b) ++ "-" ++ jsToString (blockDate b)))

/-- The record literal of lines 176-191. -/
def blockRecord (b : ReviewBlock) : Review :=
  { reviewId := blockReviewId b,
    userName := truthyOr (blockAuthor b) (.str "Anonymous"),
    userImage := .null,
    date := blockDate b,
    dateText := blockDate b,
    score := truthyOr (blockRating b) (.num 0 0),
    scoreText := if truthy (blockRating b) then .str (jsToString (blockRating b)) else .str "0",
    title := .null,
    text := blockText b,
    replyDate := .null,
    replyText := .null,
    version := .null,
    thumbsUp := blockThumbs b,
    criterias := .arr [] }

/-- One visible-markup review block (src/src/parsers/googlePlay/reviews.js
lines 125-194): field post-processing, the `rating || text || author`
meaningful-data test, the identity key, dedup, and the record literal. -/
def strat3Block (st : RState) (b : ReviewBlock) : RState :=
  if blockCond b then addIfNew st (blockKey b) (blockRecord b) else st

/-- The regex-level content of one reviews document, the oracle for what the
source's `match`/`matchAll`/`JSON.parse` calls find in the HTML string:
parsed JSON-LD blocks in document order (unparseable ones are skipped by the
source and omitted here), successfully parsed candidate arrays of the
embedded-script pattern loop, successfully parsed direct-JSON scripts,
visible-markup review blocks (flattened over the four container patterns in
order), and the first pagination-token capture. -/
structure ReviewsDoc where
  jsonLdBlocks : List JValue
  scriptArrays : List (List JValue)
  directScripts : List JValue
  reviewBlocks : List ReviewBlock
  paginationToken : Option String

/-- The `{data, nextPaginationToken}` result shape of `parseReviews`. -/
structure ReviewsResult where
  data : List Review
  nextPaginationToken : Option String

/-- The empty reviews document: no recognizable review markup and no
embedded review JSON. -/
def emptyReviewsDoc : ReviewsDoc := ⟨[], [], [], [], none⟩

/-- Google Play `parseReviews` (src/src/parsers/googlePlay/reviews.js lines
11-224): the `!html || typeof html !== 'string'` guard, the extraction
strategies sharing one `seenReviewIds` set in priority order, and the
pagination token. -/
def parseReviews (input : JValue) (doc : ReviewsDoc) : ReviewsResult :=
  match input with
  | .str s =>
      if s = "" then ⟨[], none⟩
      else
        let st0 : RState := ⟨[], []⟩
        let st1 := doc.jsonLdBlocks.foldl strat1Block st0
        let st2 := doc.scriptArrays.foldl strat2Array st1
        let st3 := doc.directScripts.foldl strat2Direct st2
        let st4 := doc.reviewBlocks.foldl strat3Block st3
        ⟨st4.out, doc.paginationToken⟩
  | _ => ⟨[], none⟩

end GooglePlay

namespace GooglePlay

/-- The `appData` object of the Google Play `parseApp`
(src/unnamed/part_001 lines 106-124): empty (all reads `undefined`) unless a
JSON-LD block parsed to a `SoftwareApplication`, in which case the six
listed fields are copied with `|| null` defaults. -/
structure AppData where
  title : JValue := .undefined
  description : JValue := .undefined
  url : JValue := .undefined
  icon : JValue := .undefined
  aggregateRating : JValue := .undefined
  offers : JValue := .undefined

/-- Build `appData` from the JSON-LD parse result (`none` means no ld+json
script matched or `JSON.parse` threw, both leaving `appData = {}`; a
`null` parse result throws on the `@type` access inside the inner `try`,
likewise leaving `{}`). -/
def appDataOf (jsonLd : Option JValue) : AppData :=
  match jsonLd with
  | none => {}
  | some j =>
      match jsGetE j "@type" with
      | .error _ => {}
      | .ok t =>
          if jsStrictEq t (.str "SoftwareApplication") then
            { title := truthyOr (getProp j "name") .null,
              description := truthyOr (getProp j "description") .null,
              url := truthyOr (getProp j "url") .null,
              icon := truthyOr (getProp j "image") .null,
              aggregateRating := truthyOr (getProp j "aggregateRating") .null,
              offers := truthyOr (getProp j "offers") .null }
          else {}

/-- The regex-level content of one Google Play app page, the oracle for what
the source's `match`/`matchAll`/`JSON.parse` calls find in the HTML
(src/unnamed/part_001 lines 104-290): for each field, the raw capture of the
first matching pattern (`none` when no pattern matched), the screenshot
captures in order, the parsed JSON-LD payload, and whether the two boolean
flag patterns matched. -/
structure AppDoc where
  jsonLd : Option JValue
  appIdM : Option String
  titleM : Option String
  devM : Option String
  devIdM : Option String
  priceM : Option String
  ratingM : Option String
  ratingCountM : Option String
  iconM : Option String
  screenshotsM : List String
  descM : Option String
  versionM : Option String
  contentRatingM : Option String
  installsM : Option String
  sizeM : Option String
  androidVersionM : Option String
  recentChangesM : Option String
  adSupportedM : Bool
  inAppPurchasesM : Bool
  categoryM : Option String
  updatedM : Option String

/-- The app record literal returned by the Google Play `parseApp`
(src/unnamed/part_001 lines 292-336), field for field. -/
structure GPApp where
  appId : JValue
  title : JValue
  url : JValue
  summary : JValue
  description : JValue
  developer : JValue
  developerId : JValue
  developerEmail : JValue
  developerWebsite : JValue
  developerAddress : JValue
  icon : JValue
  headerImage : JValue
  score : JValue
  scoreText : JValue
  ratings : JValue
  reviews : JValue
  price : JValue
  priceText : JValue
  free : JValue
  currency : JValue
  version : JValue
  contentRating : JValue
  contentRatingDescription : JValue
  adSupported : JValue
  inAppPurchases : JValue
  screenshots : JValue
  video : JValue
  videoImage : JValue
  recentChanges : JValue
  comments : JValue
  editorsChoice : JValue
  category : JValue
  categoryId : JValue
  size : JValue
  androidVersion : JValue
  androidVersionText : JValue
  updated : JValue
  installs : JValue
  minInstalls : JValue
  maxInstalls : JValue
  requiresAndroid : JValue
  permissions : JValue
  similarApps : JValue

/-- The first `/(\d+(?:\.\d+)?)/` match in a string (the Android version
number extraction of src/unnamed/part_001 line 252). -/
def firstNumber (s : String) : Option String :=
  let l := s.toList.dropWhile (fun c => ¬ c.isDigit)
  if l = [] then none
  else
    let ip := l.takeWhile Char.isDigit
    let rest := l.dropWhile Char.isDigit
    match rest with
    | '.' :: r =>
        let fp := r.takeWhile Char.isDigit
        if fp = [] then some (String.mk ip) else some (String.mk (ip ++ '.' :: fp))
    | _ => some (String.mk ip)

/-- The `description` value (src/unnamed/part_001 lines 172-174): the first
matching markup capture, tag-stripped and trimmed, else
`appData.description`. -/
def descriptionOf (doc : AppDoc) : JValue :=
  match doc.descM with
  | some s => .str (jsTrim (stripTags s))
  | none => (appDataOf doc.jsonLd).description

/-- The `priceText` value (src/unnamed/part_001 line 149): the trimmed price
capture or the `'Free'` default. -/
def priceTextOf (doc : AppDoc) : String :=
  match doc.priceM with
  | some s => jsTrim s
  | none => "Free"

/-- `free` (src/unnamed/part_001 line 150):
`priceText.toLowerCase() === 'free' || priceText === '0' || !priceText`. -/
def freeOf (doc : AppDoc) : Bool :=
  strLower (priceTextOf doc) = "free" ∨ priceTextOf doc = "0" ∨ priceTextOf doc = ""

/-- The `summary` computation (src/unnamed/part_001 line 296):
`description ? description.substring(0, 200) : null`; `substring` on a
truthy non-string (a non-string JSON-LD `description`) throws. -/
def summaryE (doc : AppDoc) : Except String JValue :=
  if truthy (descriptionOf doc) then
    match descriptionOf doc with
    | .str s => .ok (.str (substringTo s 200))
    | _ => .error "TypeError"
  else .ok .null

/-- The app record literal (src/unnamed/part_001 lines 292-336), given the
already-computed `summary`. -/
def gpAppRecord (doc : AppDoc) (summary : JValue) : GPApp :=
  { appId :=
      (match doc.appIdM with
       | some s => .str s
       | none => .null),
    title :=
      (match doc.titleM with
       | some s => .str (jsTrim s)
       | none => (appDataOf doc.jsonLd).title),
    url :=
      (match doc.appIdM with
       | some s => if s = "" then .null else .str ("https://play.google.com/store/apps/details?id=" ++ s)
       | none => .null),
    summary := summary,
    description := descriptionOf doc,
    developer :=
      (match doc.devM with
       | some s => .str (jsTrim s)
       | none => .null),
    developerId :=
      (match doc.devIdM with
       | some s => .str s
       | none => .null),
    developerEmail := .null,
    developerWebsite := .null,
    developerAddress := .null,
    icon :=
      (match doc.iconM with
       | some s => .str s
       | none => (appDataOf doc.jsonLd).icon),
    headerImage := .null,
    score :=
      (match doc.ratingM with
       | some s => parseFloatJ s
       | none => .null),
    scoreText :=
      (match (match doc.ratingM with | some s => parseFloatJ s | none => .null) with
       | .num m e => if m = 0 then .null else .str (toFixed1 m e)
       | _ => .null),
    ratings :=
      (match doc.ratingCountM with
       | some s => parseIntJ (removeCommas s)
       | none => .num 0 0),
    reviews :=
      (match doc.ratingCountM with
       | some s => parseIntJ (removeCommas s)
       | none => .num 0 0),
    price := if freeOf doc then .num 0 0 else .null,
    priceText := .str (priceTextOf doc),
    free := .bool (freeOf doc),
    currency := if freeOf doc then .null else .str "USD",
    version :=
      (match doc.versionM with
       | some s => .str (jsTrim s)
       | none => .null),
    contentRating :=
      (match doc.contentRatingM with
       | some s => .str (jsTrim s)
       | none => .null),
    contentRatingDescription := .null,
    adSupported := if doc.adSupportedM then .bool true else .null,
    inAppPurchases := if doc.inAppPurchasesM then .bool true else .null,
    screenshots := .arr ((doc.screenshotsM.filter (fun s => s ≠ "")).map JValue.str),
    video := .null,
    videoImage := .null,
    recentChanges :=
      (match doc.recentChangesM with
       | some s =>
           let rc := jsTrim (stripTags s)
           if rc.toList.length > 500 then .str (substringTo rc 500 ++ "...") else .str rc
       | none => .null),
    comments := .arr [],
    editorsChoice := .bool false,
    category :=
      (match doc.categoryM with
       | some s => .str s
       | none => .null),
    categoryId :=
      (match doc.categoryM with
       | some s => .str s
       | none => .null),
    size :=
      (match doc.sizeM with
       | some s => .str (jsTrim s)
       | none => .null),
    androidVersion :=
      (match doc.androidVersionM with
       | some s =>
           match firstNumber (jsTrim s) with
           | some ns => .str ns
           | none => .null
       | none => .null),
    androidVersionText :=
      (match doc.androidVersionM with
       | some s => .str (jsTrim s)
       | none => .null),
    updated :=
      (match doc.updatedM with
       | some s => .str (jsTrim s)
       | none => .null),
    installs :=
      (match doc.installsM with
       | some s => .str (digitsOnly s)
       | none => .null),
    minInstalls := .null,
    maxInstalls := .null,
    requiresAndroid :=
      (match doc.androidVersionM with
       | some s => .str (jsTrim s)
       | none => .null),
    permissions := .arr [],
    similarApps := .arr [] }

/-- The body of the Google Play `parseApp` after the guard
(src/unnamed/part_001 lines 104-336).  The only reachable throw inside the
outer `try` is `description.substring` on a truthy non-string
`appData.description`; the `Except` layer records it and `parseApp` turns it
into `null`. -/
def mkGPApp (doc : AppDoc) : Except String GPApp := do
  let summary ← summaryE doc
  .ok (gpAppRecord doc summary)

/-- Google Play `parseApp` (src/unnamed/part_001 lines 98-341): the
`!html || typeof html !== 'string'` guard, then the record construction with
the outer `catch` turning any error into `null`. -/
def parseApp (input : JValue) (doc : AppDoc) : Option GPApp :=
  match input with
  | .str s =>
      if s = "" then none
      else
        match mkGPApp doc with
        | .ok a => some a
        | .error _ => none
  | _ => none

end GooglePlay

/-- The lexicographic string order of the default JavaScript
`Array.prototype.sort` comparator, as a relation. -/
def catLe (a b : String) : Prop := strLeB a b = true

instance : DecidableRel catLe := fun a b =>
  inferInstanceAs (Decidable (strLeB a b = true))

instance : IsTotal String catLe := by
  constructor
  intro a b
  unfold catLe strLeB
  generalize a.toList = as
  generalize b.toList = bs
  induction as generalizing bs with
  | nil => exact Or.inl rfl
  | cons x xs ih =>
      cases bs with
      | nil => exact Or.inr rfl
      | cons y ys =>
          by_cases hxy : x.toNat < y.toNat
          · exact Or.inl (by simp [lexLeB, hxy])
          · by_cases hyx : y.toNat < x.toNat
            · exact Or.inr (by simp [lexLeB, hyx])
            · rcases ih ys with h | h
              · exact Or.inl (by simp [lexLeB, hxy, hyx, h])
              · exact Or.inr (by simp [lexLeB, hxy, hyx, h])

instance : IsTrans String catLe := by
  constructor
  intro a b c h1 h2
  unfold catLe strLeB at h1 h2 ⊢
  revert h1 h2
  generalize a.toList = as
  generalize b.toList = bs
  generalize c.toList = cs
  induction as generalizing bs cs with
  | nil => intro _ _; rfl
  | cons x xs ih =>
      cases bs with
      | nil => intro h1 _; simp [lexLeB] at h1
      | cons y ys =>
          cases cs with
          | nil => intro _ h2; simp [lexLeB] at h2
          | cons z zs =>
              intro h1 h2
              simp only [lexLeB] at h1 h2 ⊢
              by_cases hxy : x.toNat < y.toNat
              · by_cases hyz : y.toNat < z.toNat
                · simp [show x.toNat < z.toNat by omega]
                · by_cases hzy : z.toNat < y.toNat
                  · simp [hyz, hzy] at h2
                  · have : y.toNat = z.toNat := by omega
                    simp [show x.toNat < z.toNat by omega]
              · by_cases hyx : y.toNat < x.toNat
                · simp [hxy, hyx] at h1
                · have hxye : x.toNat = y.toNat := by omega
                  by_cases hyz : y.toNat < z.toNat
                  · simp [show x.toNat < z.toNat by omega]
                  · by_cases hzy : z.toNat < y.toNat
                    · simp [hyz, hzy] at h2
                    · have hyze : y.toNat = z.toNat := by omega
                      have hxz : ¬ x.toNat < z.toNat := by omega
                      have hzx : ¬ z.toNat < x.toNat := by omega
                      simp [hxy, hyx, hyz, hzy, hxz, hzx] at h1 h2 ⊢
                      exact ih ys zs h1 h2

namespace GooglePlay

/-- The fixed fallback category list of `parseCategories`
(src/src/parsers/googlePlay/categories.js lines 58-93), in source order. -/
def fallbackCategories : List String :=
  [ "APPLICATION", "GAME", "ART_AND_DESIGN", "AUTO_AND_VEHICLES", "BEAUTY",
    "BOOKS_AND_REFERENCE", "BUSINESS", "COMICS", "COMMUNICATION", "DATING",
    "EDUCATION", "ENTERTAINMENT", "EVENTS", "FINANCE", "FOOD_AND_DRINK",
    "HEALTH_AND_FITNESS", "HOUSE_AND_HOME", "LIBRARIES_AND_DEMO", "LIFESTYLE",
    "MAPS_AND_NAVIGATION", "MEDICAL", "MUSIC_AND_AUDIO", "NEWS_AND_MAGAZINES",
    "PARENTING", "PERSONALIZATION", "PHOTOGRAPHY", "PRODUCTIVITY", "SHOPPING",
    "SOCIAL", "SPORTS", "TOOLS", "TRAVEL_AND_LOCAL", "VIDEO_PLAYERS", "WEATHER" ]

/-- The regex-level content of one categories document: the capture of each
category link match in document order, then the quoted strings found inside
`categories: [...]` spans of script content, flattened in order. -/
structure CatDoc where
  linkCaps : List String
  scriptCaps : List String

/-- `if (category && !categories.includes(category)) categories.push(category)`
(src/src/parsers/googlePlay/categories.js lines 24-26 and 45-47). -/
def dedupAppendCat (acc : List String) (c : String) : List String :=
  if c ≠ "" ∧ c ∉ acc then acc ++ [c] else acc

/-- Google Play `parseCategories` (src/src/parsers/googlePlay/categories.js
lines 10-101): the string guard, both extraction loops with the
`includes` dedup, the fixed fallback list when nothing was found, and the
default lexicographic `sort()` otherwise. -/
def parseCategories (input : JValue) (doc : CatDoc) : List String :=
  match input with
  | .str s =>
      if s = "" then []
      else
        let cats := (doc.linkCaps ++ doc.scriptCaps).foldl dedupAppendCat []
        if cats = [] then fallbackCategories
        else List.insertionSort catLe cats
  | _ => []

/-- One visible-markup permission item of strategy 1
(src/src/parsers/googlePlay/permissions.js lines 44-93): the raw capture of
the first matching name pattern and of the first matching type pattern. -/
structure PermItemX where
  nameRaw : Option String
  typeRaw : Option String

/-- One matched permission array span of strategy 2 (lines 113-175): the
captures of the `/"([^"]+)"/g` scan over the span, and the JSON items when
`JSON.parse("[" + span + "]")` succeeded. -/
structure ScriptPermBlock where
  stringCaps : List String
  jsonItems : Option (List JValue)

/-- The regex-level content of one permissions document, flattening each
strategy's nested pattern loops in match order. -/
structure PermDoc where
  strat1Items : List PermItemX
  strat2Blocks : List ScriptPermBlock
  metaCaps : List String
  strat4Caps : List String

/-- The mutable state of one `parsePermissions` call: the lower-cased
`seenPermissions` set and the output array. -/
structure PState where
  seen : List String
  out : List JValue

/-- The push guarded by the `seenPermissions` check: `name` is the pushed
value (the bare name in `short` mode, the `{permission, type}` record
otherwise), `lower` its lower-cased set key. -/
def pushPerm (short : Bool) (st : PState) (name : JValue) (lower : String) (ty : JValue) : PState :=
  if st.seen.contains lower then st
  else
    { seen := lower :: st.seen,
      out := st.out ++ [if short then name else .obj [("permission", name), ("type", ty)]] }

/-- One strategy-1 item (lines 44-93): trimmed first name capture, trimmed
type capture defaulting to `""`, pushed only when the name is truthy. -/
def strat1PermItem (short : Bool) (st : PState) (it : PermItemX) : PState :=
  let ty : String := (it.typeRaw.map jsTrim).getD ""
  match it.nameRaw with
  | some raw =>
      let n := jsTrim raw
      if n ≠ "" then pushPerm short st (.str n) (strLower n) (.str ty) else st
  | none => st

/-- One capture of the strategy-2 string scan (lines 120-134): trimmed, kept
when non-empty and longer than 3. -/
def strat2StringCap (short : Bool) (st : PState) (cap : String) : PState :=
  let n := jsTrim cap
  if n ≠ "" ∧ n.toList.length > 3 then pushPerm short st (.str n) (strLower n) (.str "") else st

/-- One parsed JSON item of strategy 2 (lines 141-169): a string item is
pushed with no emptiness check; an object item resolves
`name/permission/label/title` and `type/category`, pushed when the name is
truthy — `toLowerCase` on a truthy non-string name throws, aborting the rest
of the block. -/
def strat2JsonItem (short : Bool) (st : PState) (item : JValue) : Except String PState :=
  match item with
  | .str s => .ok (pushPerm short st (.str s) (strLower s) (.str ""))
  | item =>
      if truthy item && (match item with | .arr _ => true | .obj _ => true | _ => false) then
        let permName := truthyOr (truthyOr (getProp item "name") (getProp item "permission")) (truthyOr (getProp item "label") (getProp item "title"))
        let permType := truthyOr (truthyOr (getProp item "type") (getProp item "category")) (.str "")
        if truthy permName then do
          let lower ← toLowerE permName
          .ok (pushPerm short st permName lower permType)
        else .ok st
      else .ok st

/-- `forEach` over strategy-2 JSON items; an error keeps what was already
pushed and skips the rest of the block (its `try` wraps the loop). -/
def strat2JsonLoop (short : Bool) : PState → List JValue → PState
  | st, [] => st
  | st, x :: xs =>
      match strat2JsonItem short st x with
      | .ok st2 => strat2JsonLoop short st2 xs
      | .error _ => st

/-- One strategy-2 block (lines 113-175): the string scan, then the JSON
items when the parse succeeded. -/
def strat2PermBlock (short : Bool) (st : PState) (b : ScriptPermBlock) : PState :=
  let st1 := b.stringCaps.foldl (strat2StringCap short) st
  match b.jsonItems with
  | some items => strat2JsonLoop short st1 items
  | none => st1

/-- One meta-tag capture of strategy 3 (lines 180-194). -/
def strat3Meta (short : Bool) (st : PState) (cap : String) : PState :=
  let n := jsTrim cap
  if n ≠ "" then pushPerm short st (.str n) (strLower n) (.str "") else st

/-- One loose-text capture of strategy 4 (lines 203-221): trimmed, kept when
its length is in `(5, 100)`. -/
def strat4Text (short : Bool) (st : PState) (cap : String) : PState :=
  let t := jsTrim cap
  if t ≠ "" ∧ t.toList.length > 5 ∧ t.toList.length < 100 then
    pushPerm short st (.str t) (strLower t) (.str "")
  else st

/-- Google Play `parsePermissions`
(src/src/parsers/googlePlay/permissions.js lines 12-228): the string guard,
the four strategies sharing one `seenPermissions` set, strategy 4 gated on
fewer than 3 permissions found so far. -/
def parsePermissions (input : JValue) (short : Bool) (doc : PermDoc) : List JValue :=
  match input with
  | .str s =>
      if s = "" then []
      else
        let st0 : PState := ⟨[], []⟩
        let st1 := doc.strat1Items.foldl (strat1PermItem short) st0
        let st2 := doc.strat2Blocks.foldl (strat2PermBlock short) st1
        let st3 := doc.metaCaps.foldl (strat3Meta short) st2
        let st4 := if st3.out.length < 3 then doc.strat4Caps.foldl (strat4Text short) st3 else st3
        st4.out
  | _ => []

/-- Well-formedness of one `parsePermissions` output element: a truthy name
(the element itself in `short` mode, its `permission` field otherwise), and
in full mode a present `type` key. -/
def permElemOK (short : Bool) (e : JValue) : Bool :=
  if short then truthy e
  else truthy (getProp e "permission") && hasKey e "type"

end GooglePlay

/-- Helper: a successful Google Play `parseApp` always returns the record
literal `gpAppRecord` for some computed summary value. -/
theorem gpParseApp_record {input : JValue} {doc : GooglePlay.AppDoc} {a : GooglePlay.GPApp}
    (h : GooglePlay.parseApp input doc = some a) :
    ∃ summary, a = GooglePlay.gpAppRecord doc summary := by
  cases input
  case str s =>
    by_cases hs : s = ""
    · subst hs
      exact Option.noConfusion h
    · have h2 : (if s = "" then none
          else match GooglePlay.mkGPApp doc with
               | .ok a0 => some a0
               | .error _ => none) = some a := h
      rw [if_neg hs] at h2
      cases hmk : GooglePlay.mkGPApp doc with
      | error e => rw [hmk] at h2; exact Option.noConfusion h2
      | ok a0 =>
          rw [hmk] at h2
          cases hsm : GooglePlay.summaryE doc with
          | error e =>
              have hcontra : GooglePlay.mkGPApp doc = .error e := by
                unfold GooglePlay.mkGPApp
                rw [hsm]
                rfl
              rw [hmk] at hcontra
              exact Except.noConfusion hcontra
          | ok sm =>
              have hrec : GooglePlay.mkGPApp doc = .ok (GooglePlay.gpAppRecord doc sm) := by
                unfold GooglePlay.mkGPApp
                rw [hsm]
                rfl
              rw [hmk] at hrec
              injection hrec with h3
              injection h2 with h4
              exact ⟨sm, by rw [← h4, h3]⟩
  all_goals exact Option.noConfusion h

/-- Helper: the `free` field of the iTunes app record is the strict
comparison of the raw price with `0`. -/
theorem getProp_mkApp_free (app : JValue) :
    getProp (AppStore.mkApp app) "free" = .bool (jsStrictEq (getProp app "price") (.num 0 0)) := rfl

/-- Helper: the `price` field of the iTunes app record is the raw price with
a `|| 0` default. -/
theorem getProp_mkApp_price (app : JValue) :
    getProp (AppStore.mkApp app) "price" = truthyOr (getProp app "price") (.num 0 0) := rfl

/-- Helper: a value strictly equal to the number `0` is falsy. -/
theorem jsStrictEq_zero_falsy {v : JValue} (h : jsStrictEq v (.num 0 0) = true) :
    truthy v = false := by
  cases v with
  | num m e =>
      simp only [jsStrictEq, numEqB, beq_iff_eq] at h
      have hm : m = 0 := by simpa using h
      simp [truthy, hm]
  | nan => simp [jsStrictEq] at h
  | null => simp [jsStrictEq] at h
  | undefined => simp [jsStrictEq] at h
  | bool b => simp [jsStrictEq] at h
  | str s => simp [jsStrictEq] at h
  | arr xs => simp [jsStrictEq] at h
  | obj fs => simp [jsStrictEq] at h

/-- Helper: a successful iTunes `parseApp` returns exactly the canonical
record built from `data.results[0]`. -/
theorem appStore_parseApp_ok {data r : JValue} (h : AppStore.parseApp data = .ok (some r)) :
    r = AppStore.mkApp (getProp (getProp data "results") "0") := by
  unfold AppStore.parseApp at h
  split at h
  · exact Option.noConfusion (Except.ok.inj h)
  · split at h
    · exact Option.noConfusion (Except.ok.inj h)
    · split at h
      · exact Option.noConfusion (Except.ok.inj h)
      · split at h
        · exact Except.noConfusion h
        · exact Except.noConfusion h
        · next x hnull hundef heq =>
            have h3 := Option.some.inj (Except.ok.inj h)
            rw [← h3]

/-- C1: the claim says every parser entry point returns normally on every
input, `null` included; but `parseSearch` reads `data.resultCount` without a
guard and throws a `TypeError` on `null` input, contradicting the spec's
never-throws contract (the code is the slip — every sibling entry point
begins with a guard). -/
theorem C1_parseSearch_throws_on_null :
    AppStore.parseSearch JValue.null = .error "TypeError" := rfl

/-- C3 counterexample: the claim says `free` is true iff the price amount is
`0`, including when the raw source omits the price; but iTunes `parseApp` on
`{results:[{trackId:1}]}` (no price) returns a record with `price = 0` and
`free = false`, so the biconditional fails at this input. -/
theorem C3_counterexample :
    (AppStore.parseApp (.obj [("results", .arr [.obj [("trackId", .num 1 0)]])])).map
        (Option.map fun r => (getProp r "free", getProp r "price")) =
      .ok (some (.bool false, .num 0 0)) ∧
    JValue.bool false ≠ JValue.bool true :=
  ⟨rfl, fun h => by injection h with h2; exact Bool.noConfusion h2⟩

/-- C3 amended: for the Google Play `parseApp` the invariant
`free = true ↔ price = 0` holds; for the iTunes `parseApp`, `free = true`
still implies `price = 0`, and `free` is true exactly when the raw record's
price field compares strictly equal (`===`) to the number `0` — when the
price is omitted the normalized price defaults to `0` while `free` is
`false`, which is what breaks the original biconditional. -/
theorem C3_amended :
    (∀ (input : JValue) (doc : GooglePlay.AppDoc) (a : GooglePlay.GPApp),
        GooglePlay.parseApp input doc = some a →
        (a.free = .bool true ↔ a.price = .num 0 0)) ∧
    (∀ data r : JValue,
        AppStore.parseApp data = .ok (some r) →
        (getProp r "free" = .bool true → getProp r "price" = .num 0 0) ∧
        (getProp r "free" = .bool true ↔
          jsStrictEq (getProp (getProp (getProp data "results") "0") "price") (.num 0 0) = true)) := by
  constructor
  · intro input doc a h
    obtain ⟨sm, ha⟩ := gpParseApp_record h
    subst ha
    show JValue.bool (GooglePlay.freeOf doc) = .bool true ↔
        (if GooglePlay.freeOf doc then JValue.num 0 0 else .null) = .num 0 0
    cases hf : GooglePlay.freeOf doc
    · simp [hf]
    · simp [hf]
  · intro data r h
    have hr := appStore_parseApp_ok h
    subst hr
    constructor
    · intro hfree
      rw [getProp_mkApp_free] at hfree
      injection hfree with hsq
      rw [getProp_mkApp_price]
      unfold truthyOr
      rw [jsStrictEq_zero_falsy hsq]
      rfl
    · rw [getProp_mkApp_free]
      exact ⟨fun hfree => JValue.bool.inj hfree, fun hsq => by rw [hsq]⟩

/-- C3 amended, witness: both parts of the amended invariant instantiated at
concrete inputs (an all-default Google Play page and the no-price iTunes
record). -/
theorem C3_amended_witness :
    ((GooglePlay.gpAppRecord
        { jsonLd := none, appIdM := none, titleM := none, devM := none, devIdM := none,
          priceM := none, ratingM := none, ratingCountM := none, iconM := none,
          screenshotsM := [], descM := none, versionM := none,
          contentRatingM := none, installsM := none, sizeM := none,
          androidVersionM := none, recentChangesM := none, adSupportedM := false,
          inAppPurchasesM := false, categoryM := none, updatedM := none }
        .null).free = .bool true ↔
      (GooglePlay.gpAppRecord
        { jsonLd := none, appIdM := none, titleM := none, devM := none, devIdM := none,
          priceM := none, ratingM := none, ratingCountM := none, iconM := none,
          screenshotsM := [], descM := none, versionM := none,
          contentRatingM := none, installsM := none, sizeM := none,
          androidVersionM := none, recentChangesM := none, adSupportedM := false,
          inAppPurchasesM := false, categoryM := none, updatedM := none }
        .null).price = .num 0 0) ∧
    ((getProp (AppStore.mkApp (.obj [("trackId", .num 1 0)])) "free" = .bool true →
        getProp (AppStore.mkApp (.obj [("trackId", .num 1 0)])) "price" = .num 0 0) ∧
      (getProp (AppStore.mkApp (.obj [("trackId", .num 1 0)])) "free" = .bool true ↔
        jsStrictEq (getProp (getProp (getProp (JValue.obj [("results", .arr [.obj [("trackId", .num 1 0)]])]) "results") "0") "price") (.num 0 0) = true)) :=
  ⟨C3_amended.1 (.str "h")
      { jsonLd := none, appIdM := none, titleM := none, devM := none, devIdM := none,
        priceM := none, ratingM := none, ratingCountM := none, iconM := none,
        screenshotsM := [], descM := none, versionM := none,
        contentRatingM := none, installsM := none, sizeM := none,
        androidVersionM := none, recentChangesM := none, adSupportedM := false,
        inAppPurchasesM := false, categoryM := none, updatedM := none }
      _ rfl,
    C3_amended.2 (.obj [("results", .arr [.obj [("trackId", .num 1 0)]])])
      (AppStore.mkApp (.obj [("trackId", .num 1 0)])) rfl⟩

/-- C2 counterexample: the claim says the structured-data (JSON-LD) value
wins when both it and the visible markup supply a title, icon or
description; but on a document whose JSON-LD supplies "A"/"IconA"/"DescA"
while the markup patterns capture "B"/"IconB"/"DescB", the returned record
carries the markup values (such a page exists: an `og:title` meta, an
`og:image` meta and a description block alongside the ld+json script). -/
theorem C2_counterexample :
    ((GooglePlay.parseApp (.str "h")
        { jsonLd := some (.obj [("@type", .str "SoftwareApplication"), ("name", .str "A"), ("image", .str "IconA"), ("description", .str "DescA")]),
          appIdM := none, titleM := some "B", devM := none, devIdM := none,
          priceM := none, ratingM := none, ratingCountM := none, iconM := some "IconB",
          screenshotsM := [], descM := some "DescB", versionM := none,
          contentRatingM := none, installsM := none, sizeM := none,
          androidVersionM := none, recentChangesM := none, adSupportedM := false,
          inAppPurchasesM := false, categoryM := none, updatedM := none }).map
        fun a => (a.title, a.icon, a.description)) =
      some (.str "B", .str "IconB", .str "DescB") ∧
    JValue.str "B" ≠ JValue.str "A" ∧ JValue.str "IconB" ≠ JValue.str "IconA" ∧
    JValue.str "DescB" ≠ JValue.str "DescA" := by
  refine ⟨rfl, ?_, ?_, ?_⟩ <;>
    exact fun h => by injection h with h2; exact absurd h2 (by decide)

/-- C2 amended: for title, icon and description the visible-markup value
wins; the structured-data (JSON-LD) value is used only when no markup
pattern matched. -/
theorem C2_amended :
    ∀ (input : JValue) (doc : GooglePlay.AppDoc) (a : GooglePlay.GPApp),
      GooglePlay.parseApp input doc = some a →
      (∀ t, doc.titleM = some t → a.title = .str (jsTrim t)) ∧
      (doc.titleM = none → a.title = (GooglePlay.appDataOf doc.jsonLd).title) ∧
      (∀ t, doc.iconM = some t → a.icon = .str t) ∧
      (doc.iconM = none → a.icon = (GooglePlay.appDataOf doc.jsonLd).icon) ∧
      (∀ t, doc.descM = some t → a.description = .str (jsTrim (stripTags t))) ∧
      (doc.descM = none → a.description = (GooglePlay.appDataOf doc.jsonLd).description) := by
  intro input doc a h
  obtain ⟨sm, ha⟩ := gpParseApp_record h
  subst ha
  refine ⟨?_, ?_, ?_, ?_, ?_, ?_⟩
  · intro t ht
    show (match doc.titleM with
          | some s => JValue.str (jsTrim s)
          | none => (GooglePlay.appDataOf doc.jsonLd).title) = .str (jsTrim t)
    rw [ht]
  · intro ht
    show (match doc.titleM with
          | some s => JValue.str (jsTrim s)
          | none => (GooglePlay.appDataOf doc.jsonLd).title) = (GooglePlay.appDataOf doc.jsonLd).title
    rw [ht]
  · intro t ht
    show (match doc.iconM with
          | some s => JValue.str s
          | none => (GooglePlay.appDataOf doc.jsonLd).icon) = .str t
    rw [ht]
  · intro ht
    show (match doc.iconM with
          | some s => JValue.str s
          | none => (GooglePlay.appDataOf doc.jsonLd).icon) = (GooglePlay.appDataOf doc.jsonLd).icon
    rw [ht]
  · intro t ht
    show GooglePlay.descriptionOf doc = .str (jsTrim (stripTags t))
    unfold GooglePlay.descriptionOf
    rw [ht]
  · intro ht
    show GooglePlay.descriptionOf doc = (GooglePlay.appDataOf doc.jsonLd).description
    unfold GooglePlay.descriptionOf
    rw [ht]

/-- C2 amended, witness: the markup-wins rule instantiated on the
counterexample document, for the title field. -/
theorem C2_amended_witness :
    (GooglePlay.gpAppRecord
        { jsonLd := some (.obj [("@type", .str "SoftwareApplication"), ("name", .str "A"), ("image", .str "IconA"), ("description", .str "DescA")]),
          appIdM := none, titleM := some "B", devM := none, devIdM := none,
          priceM := none, ratingM := none, ratingCountM := none, iconM := some "IconB",
          screenshotsM := [], descM := some "DescB", versionM := none,
          contentRatingM := none, installsM := none, sizeM := none,
          androidVersionM := none, recentChangesM := none, adSupportedM := false,
          inAppPurchasesM := false, categoryM := none, updatedM := none }
        (.str "DescB")).title = .str (jsTrim "B") :=
  (C2_amended (.str "h")
    { jsonLd := some (.obj [("@type", .str "SoftwareApplication"), ("name", .str "A"), ("image", .str "IconA"), ("description", .str "DescA")]),
      appIdM := none, titleM := some "B", devM := none, devIdM := none,
      priceM := none, ratingM := none, ratingCountM := none, iconM := some "IconB",
      screenshotsM := [], descM := some "DescB", versionM := none,
      contentRatingM := none, installsM := none, sizeM := none,
      androidVersionM := none, recentChangesM := none, adSupportedM := false,
      inAppPurchasesM := false, categoryM := none, updatedM := none }
    _ rfl).1 "B" rfl

/-- C7: iTunes `parseApp` on
`{results:[{trackId:123, bundleId:"com.x", trackName:"X", price:0}]}`
returns the App record with id 123, appId "com.x", title "X", free true,
price 0, and the documented `null`/`0`/`[]`/`false` defaults for every
remaining canonical field, with no key missing. -/
theorem C7_scenarioA :
    AppStore.parseApp (.obj [("results", .arr [.obj [("trackId", .num 123 0), ("bundleId", .str "com.x"), ("trackName", .str "X"), ("price", .num 0 0)]])]) =
      .ok (some (.obj
        [ ("id", .num 123 0),
          ("appId", .str "com.x"),
          ("title", .str "X"),
          ("url", .null),
          ("description", .null),
          ("releaseNotes", .null),
          ("version", .null),
          ("releaseDate", .null),
          ("currentVersionReleaseDate", .null),
          ("price", .num 0 0),
          ("currency", .null),
          ("free", .bool true),
          ("developer", .obj [("id", .null), ("name", .null), ("url", .null)]),
          ("category", .obj [("id", .null), ("name", .null), ("genres", .arr [])]),
          ("rating", .obj [("average", .null), ("count", .num 0 0)]),
          ("contentAdvisoryRating", .null),
          ("screenshotUrls", .arr []),
          ("ipadScreenshotUrls", .arr []),
          ("appletvScreenshotUrls", .arr []),
          ("artwork", .obj [("icon", .null), ("icon60", .null), ("icon100", .null), ("icon512", .null)]),
          ("supportedDevices", .arr []),
          ("minimumOsVersion", .null),
          ("languageCodesISO2A", .arr []),
          ("fileSizeBytes", .null),
          ("sellerName", .null),
          ("formattedPrice", .null),
          ("isGameCenterEnabled", .bool false),
          ("features", .arr []),
          ("advisories", .arr []),
          ("kind", .null),
          ("averageUserRatingForCurrentVersion", .null),
          ("userRatingCountForCurrentVersion", .num 0 0) ])) := rfl

/-- C8: the Google Play `parseReviews` returns exactly
`{data: [], nextPaginationToken: null}` for every non-string input, and for
every string whose document contains no recognizable review markup and no
embedded review JSON (all strategy extractions empty, no pagination-token
match). -/
theorem C8_empty_cases :
    ∀ (input : JValue) (doc : GooglePlay.ReviewsDoc),
      ((∀ s : String, input ≠ .str s) →
        GooglePlay.parseReviews input doc = ⟨[], none⟩) ∧
      (doc = GooglePlay.emptyReviewsDoc →
        GooglePlay.parseReviews input doc = ⟨[], none⟩) := by
  intro input doc
  constructor
  · intro h
    cases input
    case str s => exact absurd rfl (h s)
    all_goals rfl
  · intro hd
    subst hd
    cases input
    case str s =>
      show (if s = "" then ({ data := [], nextPaginationToken := none } : GooglePlay.ReviewsResult)
            else { data := [], nextPaginationToken := none }) =
          { data := [], nextPaginationToken := none }
      split <;> rfl
    all_goals rfl

/-- C8, witness: the empty result on a concrete non-string input and a
concrete markup-free HTML string. -/
theorem C8_witness :
    GooglePlay.parseReviews (.num 1 0) GooglePlay.emptyReviewsDoc = ⟨[], none⟩ ∧
    GooglePlay.parseReviews (.str "<html></html>") GooglePlay.emptyReviewsDoc = ⟨[], none⟩ :=
  ⟨(C8_empty_cases (.num 1 0) GooglePlay.emptyReviewsDoc).1 (fun s h => by cases h),
   (C8_empty_cases (.str "<html></html>") GooglePlay.emptyReviewsDoc).2 rfl⟩

/-- C9 counterexample: the claim says every suggestion record carries both a
`term` and a `priority` key; but the Google Play `parseSuggest` on the array
input `["a"]` returns a record with only the `term` key (the bare-string
branch pushes `{term: item}` without a priority). -/
theorem C9_counterexample :
    GooglePlay.parseSuggest (.arr [.str "a"]) (fun _ => none) = [.obj [("term", .str "a")]] ∧
    hasKey (.obj [("term", .str "a")]) "priority" = false := ⟨rfl, rfl⟩

/-- C10: for every input, the histogram of `parseRatings` has all five
buckets hard-coded to zero, and when the input or its `rating` field is
falsy the result is exactly the default object (ratings 0, zero histogram,
no `average` key). -/
theorem C10_histogram :
    ∀ d : JValue,
      getProp (AppStore.parseRatings d) "histogram" = AppStore.zeroHistogram ∧
      ((truthy d = false ∨ truthy (getProp d "rating") = false) →
        AppStore.parseRatings d = .obj [("ratings", .num 0 0), ("histogram", AppStore.zeroHistogram)]) := by
  intro d
  constructor
  · unfold AppStore.parseRatings
    by_cases h : truthy d = false ∨ truthy (getProp d "rating") = false
    · rw [if_pos h]
      rfl
    · rw [if_neg h]
      rfl
  · intro h
    unfold AppStore.parseRatings
    rw [if_pos h]

/-- C10, witness: the default branch at the concrete input `null`. -/
theorem C10_witness :
    getProp (AppStore.parseRatings .null) "histogram" = AppStore.zeroHistogram ∧
    AppStore.parseRatings .null = .obj [("ratings", .num 0 0), ("histogram", AppStore.zeroHistogram)] :=
  ⟨(C10_histogram .null).1, (C10_histogram .null).2 (Or.inl rfl)⟩

/-- Helper: on a non-empty string input `parseReviews` runs the strategy
folds over one shared state and returns the collected records with the
pagination token. -/
theorem parseReviews_str {s : String} (hs : s ≠ "") (doc : GooglePlay.ReviewsDoc) :
    GooglePlay.parseReviews (.str s) doc =
      { data := (doc.reviewBlocks.foldl GooglePlay.strat3Block
                  (doc.directScripts.foldl GooglePlay.strat2Direct
                    (doc.scriptArrays.foldl GooglePlay.strat2Array
                      (doc.jsonLdBlocks.foldl GooglePlay.strat1Block { seen := [], out := [] })))).out,
        nextPaginationToken := doc.paginationToken } := by
  have h : GooglePlay.parseReviews (.str s) doc =
      (if s = "" then { data := [], nextPaginationToken := none }
       else
        { data := (doc.reviewBlocks.foldl GooglePlay.strat3Block
                    (doc.directScripts.foldl GooglePlay.strat2Direct
                      (doc.scriptArrays.foldl GooglePlay.strat2Array
                        (doc.jsonLdBlocks.foldl GooglePlay.strat1Block { seen := [], out := [] })))).out,
          nextPaginationToken := doc.paginationToken }) := rfl
  rw [h, if_neg hs]

/-- Helper: the identity key of a visible-markup review block is always a
string (one of `reviewId`, `text`, or the author-date template). -/
theorem blockKey_str (b : GooglePlay.ReviewBlock) : ∃ ks, GooglePlay.blockKey b = .str ks := by
  unfold GooglePlay.blockKey truthyOr
  by_cases h2 : truthy (GooglePlay.blockReviewId b) = true
  · rw [if_pos h2, if_pos h2]
    unfold GooglePlay.blockReviewId at h2 ⊢
    cases hr : b.reviewId with
    | some s => exact ⟨s, rfl⟩
    | none => rw [hr] at h2; exact absurd h2 (by simp [truthy])
  · rw [if_neg h2]
    by_cases h3 : truthy (GooglePlay.blockText b) = true
    · rw [if_pos h3]
      unfold GooglePlay.blockText at h3 ⊢
      cases ht : b.text with
      | some t => exact ⟨GooglePlay.processText t, rfl⟩
      | none => rw [ht] at h3; exact absurd h3 (by simp [truthy])
    · rw [if_neg h3]
      exact ⟨_, rfl⟩

/-- C4 counterexample: the claim says two candidates sharing an identity key
are merged field-by-field, so a document with one block carrying only a
rating and a second block with the same `data-review-id` carrying only text
should yield a record holding both; the code instead drops the second block
entirely: the single output record has `score` 5 but `text` null, not the
second candidate's "Great app" (second conjunct). -/
theorem C4_counterexample :
    GooglePlay.parseReviews (.str "h")
        ⟨[], [], [],
          [ { rating := some "5", text := none, author := none, date := none, reviewId := some "r1", thumbsUp := none },
            { rating := none, text := some "Great app", author := none, date := none, reviewId := some "r1", thumbsUp := none } ],
          none⟩ =
      ⟨[{ reviewId := .str "r1", userName := .str "Anonymous", userImage := .null,
          date := .null, dateText := .null, score := .num 5 0, scoreText := .str "5",
          title := .null, text := .null, replyDate := .null, replyText := .null,
          version := .null, thumbsUp := .num 0 0, criterias := .arr [] }], none⟩ ∧
    JValue.null ≠ JValue.str "Great app" :=
  ⟨rfl, fun h => JValue.noConfusion h⟩

/-- C4 amended: when two candidates share an identity key, the earlier
(higher-priority) candidate's record is kept unchanged and the later
candidate is discarded entirely; no field-level merging occurs. -/
theorem C4_amended :
    ∀ (s : String) (a b : GooglePlay.ReviewBlock),
      s ≠ "" →
      GooglePlay.blockCond a = true →
      GooglePlay.blockKey b = GooglePlay.blockKey a →
      GooglePlay.parseReviews (.str s) ⟨[], [], [], [a, b], none⟩ =
        ⟨[GooglePlay.blockRecord a], none⟩ := by
  intro s a b hs hca hkb
  rw [parseReviews_str hs]
  have h1 : GooglePlay.strat3Block { seen := [], out := [] } a =
      { seen := [GooglePlay.blockKey a], out := [GooglePlay.blockRecord a] } := by
    unfold GooglePlay.strat3Block
    rw [if_pos hca]
    rfl
  have h2 : GooglePlay.strat3Block { seen := [GooglePlay.blockKey a], out := [GooglePlay.blockRecord a] } b =
      { seen := [GooglePlay.blockKey a], out := [GooglePlay.blockRecord a] } := by
    unfold GooglePlay.strat3Block
    by_cases hcb : GooglePlay.blockCond b = true
    · rw [if_pos hcb]
      unfold GooglePlay.addIfNew
      obtain ⟨ks, hks⟩ := blockKey_str a
      rw [hkb, hks]
      rw [if_pos (by simp [sameValueZero])]
    · rw [if_neg hcb]
  simp only [List.foldl_cons, List.foldl_nil]
  rw [h1, h2]

/-- C4 amended, witness: the keep-first/drop-second rule at the
counterexample blocks. -/
theorem C4_amended_witness :
    GooglePlay.parseReviews (.str "h")
        ⟨[], [], [],
          [ { rating := some "5", text := none, author := none, date := none, reviewId := some "r1", thumbsUp := none },
            { rating := none, text := some "Great app", author := none, date := none, reviewId := some "r1", thumbsUp := none } ],
          none⟩ =
      ⟨[GooglePlay.blockRecord { rating := some "5", text := none, author := none, date := none, reviewId := some "r1", thumbsUp := none }], none⟩ :=
  C4_amended "h"
    { rating := some "5", text := none, author := none, date := none, reviewId := some "r1", thumbsUp := none }
    { rating := none, text := some "Great app", author := none, date := none, reviewId := some "r1", thumbsUp := none }
    (by decide) rfl rfl

/-- Helper: reduction of the array-branch suggestion item on a non-string,
non-nullish input. -/
theorem suggestArrayItem_nonnull (x : JValue) (h1 : x ≠ .null) (h2 : x ≠ .undefined)
    (h3 : ∀ s, x ≠ .str s) :
    GooglePlay.suggestArrayItem x =
      (if truthy (truthyOr (truthyOr (getProp x "suggestion") (getProp x "term")) (getProp x "q")) = true
       then .ok (some (.obj
          [ ("term", truthyOr (truthyOr (getProp x "suggestion") (getProp x "term")) (getProp x "q")),
            ("priority", truthyOr (getProp x "priority") (.num 0 0)) ]))
       else .ok none) := by
  cases x <;>
    first
      | rfl
      | exact absurd rfl h1
      | exact absurd rfl h2
      | exact absurd rfl (h3 _)

/-- Helper: any record produced by the array branch of the Google Play
`parseSuggest` carries a `term` key, and either a `priority` key or the
bare-string shape. -/
theorem suggestArrayItem_shape {x v : JValue} (h : GooglePlay.suggestArrayItem x = .ok (some v)) :
    hasKey v "term" = true ∧ (hasKey v "priority" = true ∨ ∃ t, v = .obj [("term", .str t)]) := by
  cases x with
  | str s =>
      have h2 := Option.some.inj (Except.ok.inj h)
      rw [← h2]
      exact ⟨rfl, Or.inr ⟨s, rfl⟩⟩
  | null => exact Except.noConfusion h
  | undefined => exact Except.noConfusion h
  | nan =>
      rw [suggestArrayItem_nonnull _ (fun hh => JValue.noConfusion hh) (fun hh => JValue.noConfusion hh) (fun s hh => JValue.noConfusion hh)] at h
      split at h
      · have h2 := Option.some.inj (Except.ok.inj h)
        rw [← h2]
        exact ⟨rfl, Or.inl rfl⟩
      · exact Option.noConfusion (Except.ok.inj h)
  | bool b =>
      rw [suggestArrayItem_nonnull _ (fun hh => JValue.noConfusion hh) (fun hh => JValue.noConfusion hh) (fun s hh => JValue.noConfusion hh)] at h
      split at h
      · have h2 := Option.some.inj (Except.ok.inj h)
        rw [← h2]
        exact ⟨rfl, Or.inl rfl⟩
      · exact Option.noConfusion (Except.ok.inj h)
  | num m e =>
      rw [suggestArrayItem_nonnull _ (fun hh => JValue.noConfusion hh) (fun hh => JValue.noConfusion hh) (fun s hh => JValue.noConfusion hh)] at h
      split at h
      · have h2 := Option.some.inj (Except.ok.inj h)
        rw [← h2]
        exact ⟨rfl, Or.inl rfl⟩
      · exact Option.noConfusion (Except.ok.inj h)
  | arr xs =>
      rw [suggestArrayItem_nonnull _ (fun hh => JValue.noConfusion hh) (fun hh => JValue.noConfusion hh) (fun s hh => JValue.noConfusion hh)] at h
      split at h
      · have h2 := Option.some.inj (Except.ok.inj h)
        rw [← h2]
        exact ⟨rfl, Or.inl rfl⟩
      · exact Option.noConfusion (Except.ok.inj h)
  | obj fs =>
      rw [suggestArrayItem_nonnull _ (fun hh => JValue.noConfusion hh) (fun hh => JValue.noConfusion hh) (fun s hh => JValue.noConfusion hh)] at h
      split at h
      · have h2 := Option.some.inj (Except.ok.inj h)
        rw [← h2]
        exact ⟨rfl, Or.inl rfl⟩
      · exact Option.noConfusion (Except.ok.inj h)

/-- Helper: shape of all records produced by the array-branch loop. -/
theorem suggestArrayLoop_shape :
    ∀ (items l : List JValue), GooglePlay.suggestArrayLoop items = .ok l →
      ∀ r ∈ l, hasKey r "term" = true ∧ (hasKey r "priority" = true ∨ ∃ t, r = .obj [("term", .str t)]) := by
  intro items
  induction items with
  | nil =>
      intro l h r hr
      have h2 := Except.ok.inj h
      rw [← h2] at hr
      exact absurd hr (List.not_mem_nil r)
  | cons x xs ih =>
      intro l h r hr
      unfold GooglePlay.suggestArrayLoop at h
      cases hx : GooglePlay.suggestArrayItem x with
      | error e => rw [hx] at h; exact Except.noConfusion h
      | ok ro =>
          rw [hx] at h
          cases hrest : GooglePlay.suggestArrayLoop xs with
          | error e => rw [hrest] at h; exact Except.noConfusion h
          | ok rest =>
              rw [hrest] at h
              cases ro with
              | some v =>
                  have h2 := Except.ok.inj h
                  rw [← h2] at hr
                  cases hr with
                  | head => exact suggestArrayItem_shape hx
                  | tail _ hr2 => exact ih rest hrest r hr2
              | none =>
                  have h2 := Except.ok.inj h
                  rw [← h2] at hr
                  exact ih rest hrest r hr

/-- Helper: the `suggestions`/`data` branch always pushes records with both
`term` and `priority` keys. -/
theorem suggestListItem_shape {x v : JValue} (h : GooglePlay.suggestListItem x = .ok v) :
    hasKey v "term" = true ∧ hasKey v "priority" = true := by
  cases x with
  | null => exact Except.noConfusion h
  | undefined => exact Except.noConfusion h
  | nan => rw [← Except.ok.inj h]; exact ⟨rfl, rfl⟩
  | bool b => rw [← Except.ok.inj h]; exact ⟨rfl, rfl⟩
  | num m e => rw [← Except.ok.inj h]; exact ⟨rfl, rfl⟩
  | str s => rw [← Except.ok.inj h]; exact ⟨rfl, rfl⟩
  | arr xs => rw [← Except.ok.inj h]; exact ⟨rfl, rfl⟩
  | obj fs => rw [← Except.ok.inj h]; exact ⟨rfl, rfl⟩

/-- Helper: shape of all records produced by the `suggestions`/`data`
loop. -/
theorem suggestListLoop_shape :
    ∀ (items l : List JValue), GooglePlay.suggestListLoop items = .ok l →
      ∀ r ∈ l, hasKey r "term" = true ∧ hasKey r "priority" = true := by
  intro items
  induction items with
  | nil =>
      intro l h r hr
      rw [← Except.ok.inj h] at hr
      exact absurd hr (List.not_mem_nil r)
  | cons x xs ih =>
      intro l h r hr
      unfold GooglePlay.suggestListLoop at h
      cases hx : GooglePlay.suggestListItem x with
      | error e => rw [hx] at h; exact Except.noConfusion h
      | ok v =>
          rw [hx] at h
          cases hrest : GooglePlay.suggestListLoop xs with
          | error e => rw [hrest] at h; exact Except.noConfusion h
          | ok rest =>
              rw [hrest] at h
              rw [← Except.ok.inj h] at hr
              cases hr with
              | head => exact suggestListItem_shape hx
              | tail _ hr2 => exact ih rest hrest r hr2

/-- Helper: reduction of `buildSuggestions` on a non-array, non-nullish
input. -/
theorem buildSuggestions_nonarr (j : JValue) (h1 : ∀ xs, j ≠ .arr xs) (h2 : j ≠ .null)
    (h3 : j ≠ .undefined) :
    GooglePlay.buildSuggestions j =
      (if truthy (truthyOr (getProp j "suggestions") (getProp j "data")) = true then
        (match truthyOr (truthyOr (getProp j "suggestions") (getProp j "data")) (.arr []) with
         | .arr items => GooglePlay.suggestListLoop items
         | _ => .error "TypeError")
       else
        if truthy (getProp j "q") = true then
          .ok [.obj [("term", getProp j "q"), ("priority", truthyOr (getProp j "priority") (.num 0 0))]]
        else .ok []) := by
  cases j <;>
    first
      | rfl
      | exact absurd rfl h2
      | exact absurd rfl h3
      | exact absurd rfl (h1 _)


/-- Helper: shape of `buildSuggestions` results on non-array inputs. -/
theorem buildSuggestions_shape_aux (j : JValue) (h1 : ∀ xs, j ≠ .arr xs) (h2 : j ≠ .null)
    (h3 : j ≠ .undefined) :
    ∀ (l : List JValue), GooglePlay.buildSuggestions j = .ok l →
      ∀ r ∈ l, hasKey r "term" = true ∧ (hasKey r "priority" = true ∨ ∃ t, r = .obj [("term", .str t)]) := by
  intro l h r hr
  rw [buildSuggestions_nonarr j h1 h2 h3] at h
  split at h
  · split at h
    · next items heq =>
        have hs := suggestListLoop_shape items l h r hr
        exact ⟨hs.1, Or.inl hs.2⟩
    · exact Except.noConfusion h
  · split at h
    · rw [← Except.ok.inj h] at hr
      cases hr with
      | head => exact ⟨rfl, Or.inl rfl⟩
      | tail _ hr2 => exact absurd hr2 (List.not_mem_nil r)
    · rw [← Except.ok.inj h] at hr
      exact absurd hr (List.not_mem_nil r)

/-- Helper: every record built by the Google Play suggestion extraction has
a `term` key and either a `priority` key or the bare-string shape. -/
theorem buildSuggestions_shape :
    ∀ (j : JValue) (l : List JValue), GooglePlay.buildSuggestions j = .ok l →
      ∀ r ∈ l, hasKey r "term" = true ∧ (hasKey r "priority" = true ∨ ∃ t, r = .obj [("term", .str t)]) := by
  intro j
  cases j with
  | arr items => exact suggestArrayLoop_shape items
  | null => intro l h r hr; exact Except.noConfusion h
  | undefined => intro l h r hr; exact Except.noConfusion h
  | nan =>
      exact buildSuggestions_shape_aux _ (fun xs hh => JValue.noConfusion hh)
        (fun hh => JValue.noConfusion hh) (fun hh => JValue.noConfusion hh)
  | bool b =>
      exact buildSuggestions_shape_aux _ (fun xs hh => JValue.noConfusion hh)
        (fun hh => JValue.noConfusion hh) (fun hh => JValue.noConfusion hh)
  | num m e =>
      exact buildSuggestions_shape_aux _ (fun xs hh => JValue.noConfusion hh)
        (fun hh => JValue.noConfusion hh) (fun hh => JValue.noConfusion hh)
  | str s =>
      exact buildSuggestions_shape_aux _ (fun xs hh => JValue.noConfusion hh)
        (fun hh => JValue.noConfusion hh) (fun hh => JValue.noConfusion hh)
  | obj fs =>
      exact buildSuggestions_shape_aux _ (fun xs hh => JValue.noConfusion hh)
        (fun hh => JValue.noConfusion hh) (fun hh => JValue.noConfusion hh)

/-- Helper: the sorted core of the Google Play `parseSuggest` yields a
descending-priority list of records of the documented shapes. -/
theorem parseSuggestCore_shape (j : JValue) :
    List.Sorted prioGE (GooglePlay.parseSuggestCore j) ∧
    ∀ r ∈ GooglePlay.parseSuggestCore j,
      hasKey r "term" = true ∧ (hasKey r "priority" = true ∨ ∃ t, r = .obj [("term", .str t)]) := by
  unfold GooglePlay.parseSuggestCore
  cases hb : GooglePlay.buildSuggestions j with
  | error e =>
      constructor
      · exact List.sorted_nil
      · intro r hr
        exact absurd hr (List.not_mem_nil r)
  | ok l =>
      constructor
      · exact List.sorted_insertionSort prioGE l
      · intro r hr
        have hr2 : r ∈ l := (List.perm_insertionSort prioGE l).mem_iff.mp hr
        exact buildSuggestions_shape j l hb r hr2

/-- Helper: every record mapped from an App Store hint carries both `term`
and `priority` keys. -/
theorem mapHints_shape :
    ∀ (items l : List JValue), AppStore.mapHints items = .ok l →
      ∀ r ∈ l, hasKey r "term" = true ∧ hasKey r "priority" = true := by
  intro items
  induction items with
  | nil =>
      intro l h r hr
      rw [← Except.ok.inj h] at hr
      exact absurd hr (List.not_mem_nil r)
  | cons x xs ih =>
      intro l h r hr
      unfold AppStore.mapHints at h
      cases hx : jsGetE x "term" with
      | error e => rw [hx] at h; exact Except.noConfusion h
      | ok t =>
          rw [hx] at h
          cases hrest : AppStore.mapHints xs with
          | error e => rw [hrest] at h; exact Except.noConfusion h
          | ok rest =>
              rw [hrest] at h
              rw [← Except.ok.inj h] at hr
              cases hr with
              | head => exact ⟨rfl, rfl⟩
              | tail _ hr2 => exact ih rest hrest r hr2

/-- C9 amended: both `parseSuggest` variants return a list sorted in
descending order of numeric priority; every App Store record carries both
`term` and `priority` keys (priority defaulting to 0), and every Google
Play record carries a `term` key and either a `priority` key or, for a
bare-string array item, the priority-less shape with only a `term` key. -/
theorem C9_amended :
    (∀ (data : JValue) (jsonParse : String → Option JValue),
        List.Sorted prioGE (GooglePlay.parseSuggest data jsonParse) ∧
        ∀ r ∈ GooglePlay.parseSuggest data jsonParse,
          hasKey r "term" = true ∧ (hasKey r "priority" = true ∨ ∃ t, r = .obj [("term", .str t)])) ∧
    (∀ (data : JValue) (l : List JValue),
        AppStore.parseSuggest data = .ok l →
        List.Sorted prioGE l ∧ ∀ r ∈ l, hasKey r "term" = true ∧ hasKey r "priority" = true) := by
  constructor
  · intro data jsonParse
    unfold GooglePlay.parseSuggest
    by_cases ht : truthy data = false
    · rw [if_pos ht]
      exact ⟨List.sorted_nil, fun r hr => absurd hr (List.not_mem_nil r)⟩
    · rw [if_neg ht]
      cases data with
      | str s =>
          show List.Sorted prioGE
              (match jsonParse s with
               | some j => GooglePlay.parseSuggestCore j
               | none => ([] : List JValue)) ∧
            ∀ r ∈ (match jsonParse s with
                   | some j => GooglePlay.parseSuggestCore j
                   | none => ([] : List JValue)),
              hasKey r "term" = true ∧ (hasKey r "priority" = true ∨ ∃ t, r = .obj [("term", .str t)])
          cases hp : jsonParse s with
          | some j => exact parseSuggestCore_shape j
          | none => exact ⟨List.sorted_nil, fun r hr => absurd hr (List.not_mem_nil r)⟩
      | null => exact absurd rfl ht
      | undefined => exact absurd rfl ht
      | nan => exact absurd rfl ht
      | bool b => exact parseSuggestCore_shape _
      | num m e => exact parseSuggestCore_shape _
      | arr xs => exact parseSuggestCore_shape _
      | obj fs => exact parseSuggestCore_shape _
  · intro data l h
    unfold AppStore.parseSuggest at h
    by_cases ht : truthy data = false
    · rw [if_pos ht] at h
      rw [← Except.ok.inj h]
      exact ⟨List.sorted_nil, fun r hr => absurd hr (List.not_mem_nil r)⟩
    · rw [if_neg ht] at h
      cases hh : getProp data "hints" with
      | arr hints =>
          rw [hh] at h
          have h2 : (AppStore.mapHints hints >>= fun recs =>
              Except.ok (List.insertionSort prioGE recs)) = Except.ok l := h
          cases hm : AppStore.mapHints hints with
          | error e => rw [hm] at h2; exact Except.noConfusion h2
          | ok recs =>
              rw [hm] at h2
              rw [← Except.ok.inj h2]
              constructor
              · exact List.sorted_insertionSort prioGE recs
              · intro r hr
                exact mapHints_shape hints recs hm r
                  ((List.perm_insertionSort prioGE recs).mem_iff.mp hr)
      | null =>
          rw [hh] at h
          rw [← Except.ok.inj h]
          exact ⟨List.sorted_nil, fun r hr => absurd hr (List.not_mem_nil r)⟩
      | undefined =>
          rw [hh] at h
          rw [← Except.ok.inj h]
          exact ⟨List.sorted_nil, fun r hr => absurd hr (List.not_mem_nil r)⟩
      | nan =>
          rw [hh] at h
          rw [← Except.ok.inj h]
          exact ⟨List.sorted_nil, fun r hr => absurd hr (List.not_mem_nil r)⟩
      | bool b =>
          rw [hh] at h
          rw [← Except.ok.inj h]
          exact ⟨List.sorted_nil, fun r hr => absurd hr (List.not_mem_nil r)⟩
      | num m e =>
          rw [hh] at h
          rw [← Except.ok.inj h]
          exact ⟨List.sorted_nil, fun r hr => absurd hr (List.not_mem_nil r)⟩
      | str s =>
          rw [hh] at h
          rw [← Except.ok.inj h]
          exact ⟨List.sorted_nil, fun r hr => absurd hr (List.not_mem_nil r)⟩
      | obj fs =>
          rw [hh] at h
          rw [← Except.ok.inj h]
          exact ⟨List.sorted_nil, fun r hr => absurd hr (List.not_mem_nil r)⟩

/-- C9 amended, witness: the sortedness and key-shape facts instantiated at
a concrete bare-string Google Play input and a concrete empty App Store
hints response. -/
theorem C9_amended_witness :
    (List.Sorted prioGE (GooglePlay.parseSuggest (.arr [.str "a"]) (fun _ => none)) ∧
      ∀ r ∈ GooglePlay.parseSuggest (.arr [.str "a"]) (fun _ => none),
        hasKey r "term" = true ∧ (hasKey r "priority" = true ∨ ∃ t, r = .obj [("term", .str t)])) ∧
    (List.Sorted prioGE ([] : List JValue) ∧
      ∀ r ∈ ([] : List JValue), hasKey r "term" = true ∧ hasKey r "priority" = true) :=
  ⟨C9_amended.1 (.arr [.str "a"]) (fun _ => none),
   C9_amended.2 (.obj [("hints", .arr [])]) [] rfl⟩
/-- Helper: a list-fold preserves any invariant that each step preserves. -/
theorem foldl_inv {α β : Type} (f : β → α → β) (P : β → Prop) :
    ∀ (l : List α) (b : β), P b → (∀ x ∈ l, ∀ st, P st → P (f st x)) → P (l.foldl f b) := by
  intro l
  induction l with
  | nil => intro b hb _; exact hb
  | cons x xs ih =>
      intro b hb hmem
      exact ih (f b x) (hmem x (List.mem_cons_self x xs) b hb)
        (fun y hy st hst => hmem y (List.mem_cons_of_mem x hy) st hst)

/-- Helper: the `includes`-guarded category push keeps the accumulator free of
duplicates. -/
theorem dedupAppendCat_nodup (l : List String) :
    ∀ acc : List String, acc.Nodup → (l.foldl GooglePlay.dedupAppendCat acc).Nodup := by
  induction l with
  | nil => intro acc h; exact h
  | cons x xs ih =>
      intro acc h
      refine ih (GooglePlay.dedupAppendCat acc x) ?_
      unfold GooglePlay.dedupAppendCat
      by_cases hx : x ≠ "" ∧ x ∉ acc
      · rw [if_pos hx]
        simp [List.nodup_append, h, hx.2]
      · rw [if_neg hx]; exact h

/-- C5 counterexample: the claim says the fallback path also returns a
lexicographically sorted list; on a document with no category links and no
script category arrays the code returns the fixed fallback list in source
order, which is not sorted ("GAME" precedes "ART_AND_DESIGN"). -/
theorem C5_counterexample :
    GooglePlay.parseCategories (.str "h") ⟨[], []⟩ = GooglePlay.fallbackCategories ∧
    ¬ List.Sorted catLe (GooglePlay.parseCategories (.str "h") ⟨[], []⟩) := by
  refine ⟨rfl, fun h => ?_⟩
  have h1 : List.Sorted catLe GooglePlay.fallbackCategories := h
  have h2 : List.Sorted catLe ("GAME" :: "ART_AND_DESIGN" ::
      GooglePlay.fallbackCategories.tail.tail.tail) := h1.tail
  have h3 : catLe "GAME" "ART_AND_DESIGN" :=
    List.rel_of_sorted_cons h2 "ART_AND_DESIGN" (List.mem_cons_self _ _)
  exact absurd h3 (by decide)

/-- C5 amended: on a non-empty string input, when the two extraction loops
find nothing `parseCategories` returns the fixed fallback list in source
order (not sorted), and otherwise returns the extracted categories sorted
lexicographically; the returned list is de-duplicated on every path. -/
theorem C5_amended (s : String) (doc : GooglePlay.CatDoc) (hs : s ≠ "") :
    (GooglePlay.parseCategories (.str s) doc).Nodup ∧
    ((doc.linkCaps ++ doc.scriptCaps).foldl GooglePlay.dedupAppendCat [] = [] →
      GooglePlay.parseCategories (.str s) doc = GooglePlay.fallbackCategories) ∧
    ((doc.linkCaps ++ doc.scriptCaps).foldl GooglePlay.dedupAppendCat [] ≠ [] →
      List.Sorted catLe (GooglePlay.parseCategories (.str s) doc)) := by
  have hred : GooglePlay.parseCategories (.str s) doc =
      (if (doc.linkCaps ++ doc.scriptCaps).foldl GooglePlay.dedupAppendCat [] = []
       then GooglePlay.fallbackCategories
       else List.insertionSort catLe
         ((doc.linkCaps ++ doc.scriptCaps).foldl GooglePlay.dedupAppendCat [])) := by
    show (if s = "" then []
          else if (doc.linkCaps ++ doc.scriptCaps).foldl GooglePlay.dedupAppendCat [] = []
               then GooglePlay.fallbackCategories
               else List.insertionSort catLe
                 ((doc.linkCaps ++ doc.scriptCaps).foldl GooglePlay.dedupAppendCat [])) = _
    rw [if_neg hs]
  by_cases hc : (doc.linkCaps ++ doc.scriptCaps).foldl GooglePlay.dedupAppendCat [] = []
  · rw [hred, if_pos hc]
    exact ⟨by decide, fun _ => rfl, fun hne => absurd hc hne⟩
  · rw [hred, if_neg hc]
    refine ⟨?_, fun he => absurd he hc, fun _ => List.sorted_insertionSort catLe _⟩
    exact ((List.perm_insertionSort catLe _).nodup_iff).mpr
      (dedupAppendCat_nodup _ [] List.nodup_nil)

/-- C5 amended, witness: the non-fallback path at a concrete two-link
document is de-duplicated and sorted. -/
theorem C5_amended_witness :
    (GooglePlay.parseCategories (.str "h") ⟨["GAME", "APP"], []⟩).Nodup ∧
    ((["GAME", "APP"] ++ ([] : List String)).foldl GooglePlay.dedupAppendCat [] = [] →
      GooglePlay.parseCategories (.str "h") ⟨["GAME", "APP"], []⟩ = GooglePlay.fallbackCategories) ∧
    ((["GAME", "APP"] ++ ([] : List String)).foldl GooglePlay.dedupAppendCat [] ≠ [] →
      List.Sorted catLe (GooglePlay.parseCategories (.str "h") ⟨["GAME", "APP"], []⟩)) :=
  C5_amended "h" ⟨["GAME", "APP"], []⟩ (by decide)

/-- Helper: the `seenPermissions`-guarded push preserves well-formedness of
all output elements whenever the pushed name is truthy. -/
theorem pushPerm_inv (short : Bool) (st : GooglePlay.PState) (name : JValue)
    (lower : String) (ty : JValue) (hname : truthy name = true)
    (hst : ∀ e ∈ st.out, GooglePlay.permElemOK short e = true) :
    ∀ e ∈ (GooglePlay.pushPerm short st name lower ty).out,
      GooglePlay.permElemOK short e = true := by
  unfold GooglePlay.pushPerm
  by_cases hc : st.seen.contains lower = true
  · rw [if_pos hc]; exact hst
  · rw [if_neg hc]
    intro e he
    simp only [List.mem_append, List.mem_singleton] at he
    rcases he with he | he
    · exact hst e he
    · subst he
      cases short with
      | true => exact hname
      | false =>
          show (truthy name && true) = true
          simp [hname]

/-- Helper: a strategy-1 markup item preserves well-formedness of the output
elements. -/
theorem strat1PermItem_inv (short : Bool) (st : GooglePlay.PState)
    (it : GooglePlay.PermItemX)
    (hst : ∀ e ∈ st.out, GooglePlay.permElemOK short e = true) :
    ∀ e ∈ (GooglePlay.strat1PermItem short st it).out,
      GooglePlay.permElemOK short e = true := by
  obtain ⟨nameRaw, typeRaw⟩ := it
  cases nameRaw with
  | none => exact hst
  | some raw =>
      by_cases hn : jsTrim raw ≠ ""
      · intro e he
        have he2 : e ∈ (GooglePlay.pushPerm short st (.str (jsTrim raw))
            (strLower (jsTrim raw)) (.str ((Option.map jsTrim typeRaw).getD ""))).out := by
          have he3 : e ∈ (if jsTrim raw ≠ "" then GooglePlay.pushPerm short st
              (.str (jsTrim raw)) (strLower (jsTrim raw))
              (.str ((Option.map jsTrim typeRaw).getD "")) else st).out := he
          rwa [if_pos hn] at he3
        refine pushPerm_inv short st _ _ _ ?_ hst e he2
        show (if jsTrim raw = "" then false else true) = true
        rw [if_neg (by simpa using hn)]
      · intro e he
        have he3 : e ∈ (if jsTrim raw ≠ "" then GooglePlay.pushPerm short st
            (.str (jsTrim raw)) (strLower (jsTrim raw))
            (.str ((Option.map jsTrim typeRaw).getD "")) else st).out := he
        rw [if_neg hn] at he3
        exact hst e he3

/-- Helper: a strategy-2 quoted-string capture preserves well-formedness of
the output elements. -/
theorem strat2StringCap_inv (short : Bool) (st : GooglePlay.PState) (cap : String)
    (hst : ∀ e ∈ st.out, GooglePlay.permElemOK short e = true) :
    ∀ e ∈ (GooglePlay.strat2StringCap short st cap).out,
      GooglePlay.permElemOK short e = true := by
  by_cases hc : jsTrim cap ≠ "" ∧ (jsTrim cap).toList.length > 3
  · intro e he
    have he2 : e ∈ (GooglePlay.pushPerm short st (.str (jsTrim cap))
        (strLower (jsTrim cap)) (.str "")).out := by
      have he3 : e ∈ (if jsTrim cap ≠ "" ∧ (jsTrim cap).toList.length > 3 then
          GooglePlay.pushPerm short st (.str (jsTrim cap)) (strLower (jsTrim cap))
          (.str "") else st).out := he
      rwa [if_pos hc] at he3
    refine pushPerm_inv short st _ _ _ ?_ hst e he2
    show (if jsTrim cap = "" then false else true) = true
    rw [if_neg (by simpa using hc.1)]
  · intro e he
    have he3 : e ∈ (if jsTrim cap ≠ "" ∧ (jsTrim cap).toList.length > 3 then
        GooglePlay.pushPerm short st (.str (jsTrim cap)) (strLower (jsTrim cap))
        (.str "") else st).out := he
    rw [if_neg hc] at he3
    exact hst e he3

/-- Helper: a strategy-2 JSON item other than the empty string preserves
well-formedness of the output elements. -/
theorem strat2JsonItem_inv (short : Bool) (st : GooglePlay.PState) (item : JValue)
    (st2 : GooglePlay.PState)
    (hok : GooglePlay.strat2JsonItem short st item = .ok st2)
    (hne : item ≠ .str "")
    (hst : ∀ e ∈ st.out, GooglePlay.permElemOK short e = true) :
    ∀ e ∈ st2.out, GooglePlay.permElemOK short e = true := by
  cases item with
  | str s =>
      have h2 : Except.ok (ε := String)
          (GooglePlay.pushPerm short st (.str s) (strLower s) (.str "")) = Except.ok st2 := hok
      have h3 := Except.ok.inj h2
      subst h3
      refine pushPerm_inv short st _ _ _ ?_ hst
      have hs : s ≠ "" := fun h => hne (by rw [h])
      show (if s = "" then false else true) = true
      rw [if_neg hs]
  | null =>
      have h2 : Except.ok (ε := String) st = Except.ok st2 := hok
      rw [← Except.ok.inj h2]; exact hst
  | undefined =>
      have h2 : Except.ok (ε := String) st = Except.ok st2 := hok
      rw [← Except.ok.inj h2]; exact hst
  | nan =>
      have h2 : Except.ok (ε := String) st = Except.ok st2 := hok
      rw [← Except.ok.inj h2]; exact hst
  | bool b =>
      cases b with
      | false =>
          have h2 : Except.ok (ε := String) st = Except.ok st2 := hok
          rw [← Except.ok.inj h2]; exact hst
      | true =>
          have h2 : Except.ok (ε := String) st = Except.ok st2 := hok
          rw [← Except.ok.inj h2]; exact hst
  | num m e =>
      have h2 : (if (truthy (JValue.num m e) && false) = true then
          Except.ok (ε := String) st else Except.ok st) = Except.ok st2 := hok
      rw [if_neg (by simp)] at h2
      rw [← Except.ok.inj h2]; exact hst
  | arr xs =>
      by_cases hp : truthy (truthyOr (truthyOr (getProp (JValue.arr xs) "name")
          (getProp (JValue.arr xs) "permission")) (truthyOr (getProp (JValue.arr xs) "label")
          (getProp (JValue.arr xs) "title"))) = true
      · have h2 : (if truthy (truthyOr (truthyOr (getProp (JValue.arr xs) "name")
            (getProp (JValue.arr xs) "permission")) (truthyOr (getProp (JValue.arr xs) "label")
            (getProp (JValue.arr xs) "title"))) = true then
              (do
                let lower ← toLowerE (truthyOr (truthyOr (getProp (JValue.arr xs) "name")
                  (getProp (JValue.arr xs) "permission")) (truthyOr (getProp (JValue.arr xs) "label")
                  (getProp (JValue.arr xs) "title")))
                Except.ok (GooglePlay.pushPerm short st (truthyOr (truthyOr (getProp (JValue.arr xs) "name")
                  (getProp (JValue.arr xs) "permission")) (truthyOr (getProp (JValue.arr xs) "label")
                  (getProp (JValue.arr xs) "title"))) lower
                  (truthyOr (truthyOr (getProp (JValue.arr xs) "type")
                    (getProp (JValue.arr xs) "category")) (.str ""))))
            else Except.ok st) = Except.ok st2 := hok
        rw [if_pos hp] at h2
        cases hlw : toLowerE (truthyOr (truthyOr (getProp (JValue.arr xs) "name")
            (getProp (JValue.arr xs) "permission")) (truthyOr (getProp (JValue.arr xs) "label")
            (getProp (JValue.arr xs) "title"))) with
        | error msg =>
            rw [hlw] at h2
            exact Except.noConfusion h2
        | ok lw =>
            rw [hlw] at h2
            have h3 := Except.ok.inj h2
            rw [← h3]
            exact pushPerm_inv short st _ _ _ hp hst
      · have h2 : (if truthy (truthyOr (truthyOr (getProp (JValue.arr xs) "name")
            (getProp (JValue.arr xs) "permission")) (truthyOr (getProp (JValue.arr xs) "label")
            (getProp (JValue.arr xs) "title"))) = true then
              (do
                let lower ← toLowerE (truthyOr (truthyOr (getProp (JValue.arr xs) "name")
                  (getProp (JValue.arr xs) "permission")) (truthyOr (getProp (JValue.arr xs) "label")
                  (getProp (JValue.arr xs) "title")))
                Except.ok (GooglePlay.pushPerm short st (truthyOr (truthyOr (getProp (JValue.arr xs) "name")
                  (getProp (JValue.arr xs) "permission")) (truthyOr (getProp (JValue.arr xs) "label")
                  (getProp (JValue.arr xs) "title"))) lower
                  (truthyOr (truthyOr (getProp (JValue.arr xs) "type")
                    (getProp (JValue.arr xs) "category")) (.str ""))))
            else Except.ok st) = Except.ok st2 := hok
        rw [if_neg hp] at h2
        rw [← Except.ok.inj h2]; exact hst
  | obj fs =>
      by_cases hp : truthy (truthyOr (truthyOr (getProp (JValue.obj fs) "name")
          (getProp (JValue.obj fs) "permission")) (truthyOr (getProp (JValue.obj fs) "label")
          (getProp (JValue.obj fs) "title"))) = true
      · have h2 : (if truthy (truthyOr (truthyOr (getProp (JValue.obj fs) "name")
            (getProp (JValue.obj fs) "permission")) (truthyOr (getProp (JValue.obj fs) "label")
            (getProp (JValue.obj fs) "title"))) = true then
              (do
                let lower ← toLowerE (truthyOr (truthyOr (getProp (JValue.obj fs) "name")
                  (getProp (JValue.obj fs) "permission")) (truthyOr (getProp (JValue.obj fs) "label")
                  (getProp (JValue.obj fs) "title")))
                Except.ok (GooglePlay.pushPerm short st (truthyOr (truthyOr (getProp (JValue.obj fs) "name")
                  (getProp (JValue.obj fs) "permission")) (truthyOr (getProp (JValue.obj fs) "label")
                  (getProp (JValue.obj fs) "title"))) lower
                  (truthyOr (truthyOr (getProp (JValue.obj fs) "type")
                    (getProp (JValue.obj fs) "category")) (.str ""))))
            else Except.ok st) = Except.ok st2 := hok
        rw [if_pos hp] at h2
        cases hlw : toLowerE (truthyOr (truthyOr (getProp (JValue.obj fs) "name")
            (getProp (JValue.obj fs) "permission")) (truthyOr (getProp (JValue.obj fs) "label")
            (getProp (JValue.obj fs) "title"))) with
        | error msg =>
            rw [hlw] at h2
            exact Except.noConfusion h2
        | ok lw =>
            rw [hlw] at h2
            have h3 := Except.ok.inj h2
            rw [← h3]
            exact pushPerm_inv short st _ _ _ hp hst
      · have h2 : (if truthy (truthyOr (truthyOr (getProp (JValue.obj fs) "name")
            (getProp (JValue.obj fs) "permission")) (truthyOr (getProp (JValue.obj fs) "label")
            (getProp (JValue.obj fs) "title"))) = true then
              (do
                let lower ← toLowerE (truthyOr (truthyOr (getProp (JValue.obj fs) "name")
                  (getProp (JValue.obj fs) "permission")) (truthyOr (getProp (JValue.obj fs) "label")
                  (getProp (JValue.obj fs) "title")))
                Except.ok (GooglePlay.pushPerm short st (truthyOr (truthyOr (getProp (JValue.obj fs) "name")
                  (getProp (JValue.obj fs) "permission")) (truthyOr (getProp (JValue.obj fs) "label")
                  (getProp (JValue.obj fs) "title"))) lower
                  (truthyOr (truthyOr (getProp (JValue.obj fs) "type")
                    (getProp (JValue.obj fs) "category")) (.str ""))))
            else Except.ok st) = Except.ok st2 := hok
        rw [if_neg hp] at h2
        rw [← Except.ok.inj h2]; exact hst

/-- Helper: the strategy-2 JSON loop preserves well-formedness of the output
elements when the empty string is not among the items. -/
theorem strat2JsonLoop_inv (short : Bool) : ∀ (items : List JValue) (st : GooglePlay.PState),
    JValue.str "" ∉ items →
    (∀ e ∈ st.out, GooglePlay.permElemOK short e = true) →
    ∀ e ∈ (GooglePlay.strat2JsonLoop short st items).out,
      GooglePlay.permElemOK short e = true := by
  intro items
  induction items with
  | nil => intro st _ hst; exact hst
  | cons x xs ih =>
      intro st hmem hst
      have hx : x ≠ JValue.str "" := by
        intro h; exact hmem (by rw [h]; exact List.mem_cons_self _ _)
      have hxs : JValue.str "" ∉ xs := fun h => hmem (List.mem_cons_of_mem x h)
      show ∀ e ∈ (match GooglePlay.strat2JsonItem short st x with
                  | .ok st2 => GooglePlay.strat2JsonLoop short st2 xs
                  | .error _ => st).out, GooglePlay.permElemOK short e = true
      cases hit : GooglePlay.strat2JsonItem short st x with
      | ok st2 => exact ih st2 hxs (strat2JsonItem_inv short st x st2 hit hx hst)
      | error msg => exact hst

/-- Helper: a strategy-2 script block preserves well-formedness of the output
elements when its parsed JSON items do not contain the empty string. -/
theorem strat2PermBlock_inv (short : Bool) (st : GooglePlay.PState)
    (b : GooglePlay.ScriptPermBlock)
    (hb : ∀ items, b.jsonItems = some items → JValue.str "" ∉ items)
    (hst : ∀ e ∈ st.out, GooglePlay.permElemOK short e = true) :
    ∀ e ∈ (GooglePlay.strat2PermBlock short st b).out,
      GooglePlay.permElemOK short e = true := by
  have h1 : ∀ e ∈ (b.stringCaps.foldl (GooglePlay.strat2StringCap short) st).out,
      GooglePlay.permElemOK short e = true :=
    foldl_inv (GooglePlay.strat2StringCap short)
      (fun st => ∀ e ∈ st.out, GooglePlay.permElemOK short e = true)
      b.stringCaps st hst (fun x _ st hst => strat2StringCap_inv short st x hst)
  show ∀ e ∈ (match b.jsonItems with
              | some items => GooglePlay.strat2JsonLoop short
                  (b.stringCaps.foldl (GooglePlay.strat2StringCap short) st) items
              | none => b.stringCaps.foldl (GooglePlay.strat2StringCap short) st).out,
        GooglePlay.permElemOK short e = true
  cases hj : b.jsonItems with
  | some items => exact strat2JsonLoop_inv short items _ (hb items hj) h1
  | none => exact h1

/-- Helper: a strategy-3 meta capture preserves well-formedness of the output
elements. -/
theorem strat3Meta_inv (short : Bool) (st : GooglePlay.PState) (cap : String)
    (hst : ∀ e ∈ st.out, GooglePlay.permElemOK short e = true) :
    ∀ e ∈ (GooglePlay.strat3Meta short st cap).out,
      GooglePlay.permElemOK short e = true := by
  by_cases hc : jsTrim cap ≠ ""
  · intro e he
    have he2 : e ∈ (GooglePlay.pushPerm short st (.str (jsTrim cap))
        (strLower (jsTrim cap)) (.str "")).out := by
      have he3 : e ∈ (if jsTrim cap ≠ "" then GooglePlay.pushPerm short st
          (.str (jsTrim cap)) (strLower (jsTrim cap)) (.str "") else st).out := he
      rwa [if_pos hc] at he3
    refine pushPerm_inv short st _ _ _ ?_ hst e he2
    show (if jsTrim cap = "" then false else true) = true
    rw [if_neg (by simpa using hc)]
  · intro e he
    have he3 : e ∈ (if jsTrim cap ≠ "" then GooglePlay.pushPerm short st
        (.str (jsTrim cap)) (strLower (jsTrim cap)) (.str "") else st).out := he
    rw [if_neg hc] at he3
    exact hst e he3

/-- Helper: a strategy-4 loose-text capture preserves well-formedness of the
output elements. -/
theorem strat4Text_inv (short : Bool) (st : GooglePlay.PState) (cap : String)
    (hst : ∀ e ∈ st.out, GooglePlay.permElemOK short e = true) :
    ∀ e ∈ (GooglePlay.strat4Text short st cap).out,
      GooglePlay.permElemOK short e = true := by
  by_cases hc : jsTrim cap ≠ "" ∧ (jsTrim cap).toList.length > 5 ∧ (jsTrim cap).toList.length < 100
  · intro e he
    have he2 : e ∈ (GooglePlay.pushPerm short st (.str (jsTrim cap))
        (strLower (jsTrim cap)) (.str "")).out := by
      have he3 : e ∈ (if jsTrim cap ≠ "" ∧ (jsTrim cap).toList.length > 5 ∧
          (jsTrim cap).toList.length < 100 then GooglePlay.pushPerm short st
          (.str (jsTrim cap)) (strLower (jsTrim cap)) (.str "") else st).out := he
      rwa [if_pos hc] at he3
    refine pushPerm_inv short st _ _ _ ?_ hst e he2
    show (if jsTrim cap = "" then false else true) = true
    rw [if_neg (by simpa using hc.1)]
  · intro e he
    have he3 : e ∈ (if jsTrim cap ≠ "" ∧ (jsTrim cap).toList.length > 5 ∧
        (jsTrim cap).toList.length < 100 then GooglePlay.pushPerm short st
        (.str (jsTrim cap)) (strLower (jsTrim cap)) (.str "") else st).out := he
    rw [if_neg hc] at he3
    exact hst e he3

/-- C6 counterexample: the claim says every output element has a non-empty
permission name; a script block whose permission array JSON-parses to a
single empty-string item yields the record `{permission: "", type: ""}`,
whose name is empty (`permElemOK` rejects it). -/
theorem C6_counterexample :
    GooglePlay.parsePermissions (.str "h") false ⟨[], [⟨[], some [.str ""]⟩], [], []⟩ =
      [.obj [("permission", .str ""), ("type", .str "")]] ∧
    GooglePlay.permElemOK false (.obj [("permission", .str ""), ("type", .str "")]) = false :=
  ⟨rfl, rfl⟩

/-- C6 amended: in both output modes, provided no strategy-2 script block's
JSON-parsed permission array contains the empty string, every element of the
`parsePermissions` output has a truthy (non-empty) permission name, and in
full mode a present `type` key; the empty-string JSON item is the one
unguarded path. -/
theorem C6_amended (s : String) (short : Bool) (doc : GooglePlay.PermDoc)
    (hjson : ∀ b ∈ doc.strat2Blocks, ∀ items, b.jsonItems = some items →
      JValue.str "" ∉ items) :
    ∀ e ∈ GooglePlay.parsePermissions (.str s) short doc,
      GooglePlay.permElemOK short e = true := by
  by_cases hs : s = ""
  · subst hs
    intro e he
    have he2 : e ∈ ([] : List JValue) := he
    exact absurd he2 (List.not_mem_nil e)
  · intro e he
    have he2 : e ∈ (if s = "" then ([] : List JValue) else
        (if (doc.metaCaps.foldl (GooglePlay.strat3Meta short)
              (doc.strat2Blocks.foldl (GooglePlay.strat2PermBlock short)
                (doc.strat1Items.foldl (GooglePlay.strat1PermItem short) ⟨[], []⟩))).out.length < 3
         then doc.strat4Caps.foldl (GooglePlay.strat4Text short)
              (doc.metaCaps.foldl (GooglePlay.strat3Meta short)
                (doc.strat2Blocks.foldl (GooglePlay.strat2PermBlock short)
                  (doc.strat1Items.foldl (GooglePlay.strat1PermItem short) ⟨[], []⟩)))
         else doc.metaCaps.foldl (GooglePlay.strat3Meta short)
              (doc.strat2Blocks.foldl (GooglePlay.strat2PermBlock short)
                (doc.strat1Items.foldl (GooglePlay.strat1PermItem short) ⟨[], []⟩))).out) := he
    rw [if_neg hs] at he2
    have h1 : ∀ e ∈ (doc.strat1Items.foldl (GooglePlay.strat1PermItem short)
        (⟨[], []⟩ : GooglePlay.PState)).out, GooglePlay.permElemOK short e = true :=
      foldl_inv (GooglePlay.strat1PermItem short)
        (fun st => ∀ e ∈ st.out, GooglePlay.permElemOK short e = true)
        doc.strat1Items ⟨[], []⟩ (fun e he => absurd he (List.not_mem_nil e))
        (fun x _ st hst => strat1PermItem_inv short st x hst)
    have h2 : ∀ e ∈ (doc.strat2Blocks.foldl (GooglePlay.strat2PermBlock short)
        (doc.strat1Items.foldl (GooglePlay.strat1PermItem short) ⟨[], []⟩)).out,
        GooglePlay.permElemOK short e = true :=
      foldl_inv (GooglePlay.strat2PermBlock short)
        (fun st => ∀ e ∈ st.out, GooglePlay.permElemOK short e = true)
        doc.strat2Blocks _ h1
        (fun b hb st hst => strat2PermBlock_inv short st b (hjson b hb) hst)
    have h3 : ∀ e ∈ (doc.metaCaps.foldl (GooglePlay.strat3Meta short)
        (doc.strat2Blocks.foldl (GooglePlay.strat2PermBlock short)
          (doc.strat1Items.foldl (GooglePlay.strat1PermItem short) ⟨[], []⟩))).out,
        GooglePlay.permElemOK short e = true :=
      foldl_inv (GooglePlay.strat3Meta short)
        (fun st => ∀ e ∈ st.out, GooglePlay.permElemOK short e = true)
        doc.metaCaps _ h2 (fun x _ st hst => strat3Meta_inv short st x hst)
    by_cases hlen : (doc.metaCaps.foldl (GooglePlay.strat3Meta short)
        (doc.strat2Blocks.foldl (GooglePlay.strat2PermBlock short)
          (doc.strat1Items.foldl (GooglePlay.strat1PermItem short) ⟨[], []⟩))).out.length < 3
    · rw [if_pos hlen] at he2
      exact foldl_inv (GooglePlay.strat4Text short)
        (fun st => ∀ e ∈ st.out, GooglePlay.permElemOK short e = true)
        doc.strat4Caps _ h3 (fun x _ st hst => strat4Text_inv short st x hst) e he2
    · rw [if_neg hlen] at he2
      exact h3 e he2

/-- C6 amended, witness: the invariant applied to the first output element of
a concrete document with one script block holding a quoted-string capture and
a parsed JSON permission name. -/
theorem C6_amended_witness :
    GooglePlay.permElemOK false
      (.obj [("permission", .str "LOCATION DATA"), ("type", .str "")]) = true :=
  C6_amended "h" false
    ⟨[], [⟨["LOCATION DATA"], some [.str "android.permission.CAMERA"]⟩], [], []⟩
    (by
      intro b hb items hit
      simp only [List.mem_singleton] at hb
      subst hb
      have hit2 : some [JValue.str "android.permission.CAMERA"] = some items := hit
      rw [← Option.some.inj hit2]
      simp)
    (.obj [("permission", .str "LOCATION DATA"), ("type", .str "")])
    (by
      rw [show GooglePlay.parsePermissions (.str "h") false
          ⟨[], [⟨["LOCATION DATA"], some [.str "android.permission.CAMERA"]⟩], [], []⟩ =
          [.obj [("permission", .str "LOCATION DATA"), ("type", .str "")],
           .obj [("permission", .str "android.permission.CAMERA"), ("type", .str "")]] from rfl]
      exact List.mem_cons_self _ _)
